/-
Verification of the plexos-coad property store against its specification.

The development shallowly embeds the SQLite-backed relational store of
`coad/COAD.py` and the loader/serializer of `coad/plexos_database.py`.
Tables are lists of typed rows (SQLite `SELECT` without `ORDER BY` is
modelled as returning rows in stored/insertion order); machine values that
SQLite stores with TEXT affinity are modelled as `String`, `_id` and `uid`
columns (INTEGER affinity) as `Nat`.  Fallible Python code (raising
exceptions) is modelled with `Except`/`Option` results; operations that
mutate the database thread an explicit state holding the store and a flag
recording whether uncommitted changes are pending on the connection.
-/
import Mathlib

set_option autoImplicit false

/-! ### Generic list helpers (shallow embedding of SQL primitives) -/

/-- `flatMap`, written out so that all simp lemmas are under our control. -/
def listJoinMap {α β : Type} (f : α → List β) : List α → List β
  | [] => []
  | a :: l => f a ++ listJoinMap f l

@[simp] theorem listJoinMap_nil {α β : Type} (f : α → List β) : listJoinMap f [] = [] := rfl

@[simp] theorem listJoinMap_cons {α β : Type} (f : α → List β) (a : α) (l : List α) :
    listJoinMap f (a :: l) = f a ++ listJoinMap f l := rfl

theorem listJoinMap_append {α β : Type} (f : α → List β) (l₁ l₂ : List α) :
    listJoinMap f (l₁ ++ l₂) = listJoinMap f l₁ ++ listJoinMap f l₂ := by
  induction l₁ with
  | nil => simp
  | cons a l ih => simp [ih]

theorem listJoinMap_congr {α β : Type} {f g : α → List β} {l : List α}
    (h : ∀ a ∈ l, f a = g a) : listJoinMap f l = listJoinMap g l := by
  induction l with
  | nil => rfl
  | cons a l ih =>
      simp only [listJoinMap_cons]
      rw [h a (by simp), ih (fun a ha => h a (by simp [ha]))]

/-- Stable insertion used to model SQL `ORDER BY` (insertion sort; equal keys
keep their original relative order, matching SQLite behaviour on the small
concrete instances we evaluate). -/
def insertBy {α : Type} (lt : α → α → Bool) (a : α) : List α → List α
  | [] => [a]
  | b :: l => if lt b a then b :: insertBy lt a l else a :: b :: l

def sortBy {α : Type} (lt : α → α → Bool) : List α → List α
  | [] => []
  | a :: l => insertBy lt a (sortBy lt l)

@[simp] theorem sortBy_nil {α : Type} (lt : α → α → Bool) : sortBy lt [] = [] := rfl

/-- Model of SQL `GROUP BY` dedup: drop later duplicates, keeping first
occurrences. -/
def dedupAux : List Nat → List Nat → List Nat
  | _, [] => []
  | seen, a :: l => if seen.contains a then dedupAux seen l else a :: dedupAux (a :: seen) l

/-- `ORDER BY band_id` comparison: SQL `NULL` sorts before every integer. -/
def bandLt : Option Nat → Option Nat → Bool
  | none, none => false
  | none, some _ => true
  | some _, none => false
  | some a, some b => a < b

/-- Python `str.split(sep)` for a single-character separator, written as
structural recursion over the character list (so that concrete instances
reduce in the kernel).  An empty string yields `[""]`, like Python. -/
def splitOnChar (c : Char) : List Char → List (List Char)
  | [] => [[]]
  | a :: rest =>
      let r := splitOnChar c rest
      if a == c then [] :: r
      else
        match r with
        | [] => [[a]]
        | h :: t => (a :: h) :: t

def pySplit (c : Char) (s : String) : List String :=
  (splitOnChar c s.toList).map String.mk

/-- Python `str.strip(quote)`: remove double-quote characters from both ends. -/
def stripQuotes (s : String) : String :=
  String.mk (((s.toList.dropWhile (fun c => c == '"')).reverse.dropWhile
    (fun c => c == '"')).reverse)

/-- Pair up the `;`-separated tokens of an `input_mask`: raw code (kept
verbatim, quotes included) paired with the display value (quotes stripped),
exactly as both `get_property` and `set_property.get_mask_value` build it. -/
def parseMaskPairs : List String → List (String × String)
  | k :: v :: rest => (k, stripQuotes v) :: parseMaskPairs rest
  | _ => []

/-- Python dict lookup where the dict was filled front to back with
assignments (a later duplicate key overwrites an earlier one): the last
matching pair wins. -/
def maskLookup (pairs : List (String × String)) (v : String) : Option String :=
  ((pairs.filter (fun p => p.1 == v)).getLast?).map (fun p => p.2)

/-- Python truthiness of the `input_mask` column: SQL `NULL` and the empty
string are both falsy. -/
def truthyMask : Option String → Option String
  | none => none
  | some m => if m == "" then none else some m

/-! ### The relational store of `COAD.py` -/

structure ClassRow where
  class_id : Nat
  name : String
  deriving Repr, DecidableEq

structure ObjectRow where
  object_id : Nat
  class_id : Nat
  name : String
  deriving Repr, DecidableEq

structure CollectionRow where
  collection_id : Nat
  parent_class_id : Nat
  child_class_id : Nat
  deriving Repr, DecidableEq

structure PropertyRow where
  property_id : Nat
  collection_id : Nat
  name : String
  input_mask : Option String
  is_dynamic : String
  is_enabled : String
  deriving Repr, DecidableEq

structure MembershipRow where
  membership_id : Nat
  parent_class_id : Nat
  parent_object_id : Nat
  collection_id : Nat
  child_class_id : Nat
  child_object_id : Nat
  deriving Repr, DecidableEq

structure DataRow where
  data_id : Nat
  uid : Nat
  membership_id : Nat
  value : String
  property_id : Nat
  deriving Repr, DecidableEq

structure BandRow where
  data_id : Nat
  band_id : Nat
  deriving Repr, DecidableEq

structure TagRow where
  data_id : Nat
  object_id : Nat
  deriving Repr, DecidableEq

structure TextRow where
  data_id : Nat
  class_id : Nat
  value : String
  deriving Repr, DecidableEq

structure ConfigRow where
  element : String
  value : String
  deriving Repr, DecidableEq

/-- The store behind one `COAD` instance.  `hasDataTable` mirrors
`'data' in self.table_list`; `has_data_uid` mirrors the probe for a `uid`
column in the `data` table done in `COAD.__init__`. -/
structure Store where
  classes : List ClassRow
  objects : List ObjectRow
  collections : List CollectionRow
  properties : List PropertyRow
  memberships : List MembershipRow
  data : List DataRow
  bands : List BandRow
  tags : List TagRow
  texts : List TextRow
  config : List ConfigRow
  hasDataTable : Bool
  has_data_uid : Bool
  deriving Repr, DecidableEq

/-! ### The `property_view` of `plexos_database.py` -/

/-- One row of the `property_view` created by `plexos_database.load` (with
the `tag`, `text` and `band` tables present, so all three left joins are
active). -/
structure PropViewRow where
  data_id : Nat
  uid : Nat
  value : String
  name : String
  input_mask : Option String
  child_object_id : Nat
  parent_object_id : Nat
  tag_object_id : Option Nat
  text_value : Option String
  band_id : Option Nat
  deriving Repr, DecidableEq

/-- `LEFT OUTER JOIN tag ON tag.data_id = data.data_id`: no matching tag row
yields a single `NULL`, otherwise one joined row per tag row. -/
def tagOpts (s : Store) (did : Nat) : List (Option Nat) :=
  match s.tags.filter (fun t => t.data_id == did) with
  | [] => [none]
  | ts => ts.map (fun t => some t.object_id)

def textOpts (s : Store) (did : Nat) : List (Option String) :=
  match s.texts.filter (fun t => t.data_id == did) with
  | [] => [none]
  | ts => ts.map (fun t => some t.value)

def bandOpts (s : Store) (did : Nat) : List (Option Nat) :=
  match s.bands.filter (fun b => b.data_id == did) with
  | [] => [none]
  | bs => bs.map (fun b => some b.band_id)

/-- The rows `property_view` derives from a single `data` row: inner joins
to `property` and `membership`, left joins to `tag`, `text` and `band` (in
the view's join order). -/
def dataViewRows (s : Store) (d : DataRow) : List PropViewRow :=
  match s.properties.find? (fun p => p.property_id == d.property_id),
        s.memberships.find? (fun m => m.membership_id == d.membership_id) with
  | some p, some m =>
      listJoinMap (fun t =>
        listJoinMap (fun tx =>
          (bandOpts s d.data_id).map (fun b =>
            { data_id := d.data_id
              uid := d.uid
              value := d.value
              name := p.name
              input_mask := p.input_mask
              child_object_id := m.child_object_id
              parent_object_id := m.parent_object_id
              tag_object_id := t
              text_value := tx
              band_id := b }))
          (textOpts s d.data_id))
        (tagOpts s d.data_id)
  | _, _ => []

def property_view (s : Store) : List PropViewRow :=
  listJoinMap (dataViewRows s) s.data

/-! ### Hierarchy resolution -/

def classNameOf (s : Store) (cid : Nat) : Option String :=
  (s.classes.find? (fun c => c.class_id == cid)).map (fun c => c.name)

/-- `COAD.get_by_hierarchy` restricted to the two-component
`ClassName.ObjectName` form used throughout the property engine:
`COAD.__getitem__` looks up the first class with the given name, then
`ClassDict.__getitem__` the object with that class id and name. -/
def get_by_hierarchy (s : Store) (hier : String) : Option ObjectRow :=
  match pySplit '.' hier with
  | [cname, oname] =>
      match s.classes.find? (fun c => c.name == cname) with
      | none => none
      | some c => s.objects.find? (fun o => o.class_id == c.class_id && o.name == oname)
  | _ => none

/-- The properties `ClassDict.__init__` files under a given parent-class
name for a child class: all properties of every collection whose child is
the class and whose parent class carries that name (iteration order of the
`collection` and `property` tables). -/
def validPropsFor (s : Store) (childClassId : Nat) (parentName : String) : List PropertyRow :=
  listJoinMap (fun c => s.properties.filter (fun p => p.collection_id == c.collection_id))
    (s.collections.filter (fun c =>
      c.child_class_id == childClassId && classNameOf s c.parent_class_id == some parentName))

/-- `valid_properties_by_name[parentName][propName]`: the Python dict is
filled front to back, so a duplicate property name resolves to the last
matching property row. -/
def lookupValidProp (s : Store) (childClassId : Nat) (parentName name : String) :
    Option PropertyRow :=
  ((validPropsFor s childClassId parentName).filter (fun p => p.name == name)).getLast?

/-! ### `ObjectDict.get_property` -/

inductive PropResult where
  | none
  | scalar (v : String)
  | list (vs : List String)
  deriving Repr, DecidableEq

/-- The `WHERE` filter of `get_property` / `delete_property`:
`(child_object_id=? AND name=?) AND (parent_object_id=? OR tag_object_id=?)`. -/
def getMatch (objId : Nat) (name : String) (tagId : Nat) (r : PropViewRow) : Bool :=
  r.child_object_id == objId && r.name == name &&
    (r.parent_object_id == tagId || r.tag_object_id == some tagId)

/-- The matching view rows, ordered by `band_id` when the `data` table has a
`uid` column (the `ORDER BY` is only appended in that case). -/
def getPropRows (s : Store) (objId : Nat) (name : String) (tagId : Nat) : List PropViewRow :=
  let rows := (property_view s).filter (getMatch objId name tagId)
  if s.has_data_uid then sortBy (fun a b => bandLt a.band_id b.band_id) rows else rows

/-- `get_property` builds its translation dict from the first returned
row's `input_mask` (truthiness: `NULL` and `""` disable translation). -/
def headValdict (rows : List PropViewRow) : List (String × String) :=
  match rows with
  | [] => []
  | r :: _ =>
      match truthyMask r.input_mask with
      | none => []
      | some m => parseMaskPairs (pySplit ';' m)

/-- `valmap`: translate a raw stored value through the dict, fall through
unchanged when it is not a key. -/
def valmap (valdict : List (String × String)) (v : String) : String :=
  match maskLookup valdict v with
  | some w => w
  | none => v

/-- `ObjectDict.get_property(name, tag)`.  Returns `.none` when the store
has no `data` table at all (checked before resolving `tag`); raises when the
tag hierarchy does not resolve; otherwise zero rows give `.none`, one row a
scalar and several rows an ordered list. -/
def get_property (s : Store) (obj : ObjectRow) (name : String) (tag : String) :
    Except String PropResult :=
  if !s.hasDataTable then .ok .none
  else
    match get_by_hierarchy s tag with
    | Option.none => .error "No such hierarchy"
    | some tag_obj =>
        let rows := getPropRows s obj.object_id name tag_obj.object_id
        let valdict := headValdict rows
        let mapped := rows.map (fun r => valmap valdict r.value)
        match mapped with
        | [] => .ok .none
        | [v] => .ok (.scalar v)
        | vs => .ok (.list vs)

/-! ### `ObjectDict.get_properties` -/

inductive PVal where
  | one (v : String)
  | many (vs : List String)
  deriving Repr, DecidableEq

def hierOf (s : Store) (oid : Nat) : Except String String :=
  match s.objects.find? (fun o => o.object_id == oid) with
  | Option.none => .error "No such object id"
  | some o =>
      match classNameOf s o.class_id with
      | Option.none => .error "No such class id"
      | some c => .ok (c ++ "." ++ o.name)

/-- `if tag_object_id:` — Python truthiness, so a `NULL` or `0` tag object
falls back to the membership parent. -/
def rowHierId (r : PropViewRow) : Nat :=
  match r.tag_object_id with
  | some t => if t != 0 then t else r.parent_object_id
  | Option.none => r.parent_object_id

/-- Per-row mask translation of `get_properties` (each row uses its own
`input_mask`). -/
def rowMaskValue (r : PropViewRow) : String :=
  match truthyMask r.input_mask with
  | Option.none => r.value
  | some m =>
      match maskLookup (parseMaskPairs (pySplit ';' m)) r.value with
      | some v => v
      | Option.none => r.value

def addPropInner (name val : String) : List (String × PVal) → List (String × PVal)
  | [] => [(name, .one val)]
  | (n, pv) :: rest =>
      if n == name then
        match pv with
        | .one v => (n, .many [v, val]) :: rest
        | .many vs => (n, .many (vs ++ [val])) :: rest
      else (n, pv) :: addPropInner name val rest

def addProp (hier name val : String) :
    List (String × List (String × PVal)) → List (String × List (String × PVal))
  | [] => [(hier, [(name, .one val)])]
  | (h, m) :: rest =>
      if h == hier then (h, addPropInner name val m) :: rest
      else (h, m) :: addProp hier name val rest

def gpLoop (s : Store) : List PropViewRow → List (String × List (String × PVal)) →
    Except String (List (String × List (String × PVal)))
  | [], acc => .ok acc
  | r :: rest, acc =>
      match hierOf s (rowHierId r) with
      | .error e => .error e
      | .ok h => gpLoop s rest (addProp h r.name (rowMaskValue r) acc)

/-- `ObjectDict.get_properties()`: empty map when there is no `data` table;
otherwise fold the object's view rows (band-ordered when `uid` exists) into
a hierarchy-keyed map of name-keyed values. -/
def get_properties (s : Store) (obj : ObjectRow) :
    Except String (List (String × List (String × PVal))) :=
  if !s.hasDataTable then .ok []
  else
    let rows := (property_view s).filter (fun r => r.child_object_id == obj.object_id)
    let rows := if s.has_data_uid then sortBy (fun a b => bandLt a.band_id b.band_id) rows else rows
    gpLoop s rows []

/-! ### Connection state and configuration table -/

/-- The sqlite connection: the store as the statements executed so far see
it, plus whether DML statements are pending that no `commit()` has made
durable yet (python sqlite3 implicit-transaction semantics). -/
structure DB where
  store : Store
  dirty : Bool
  deriving Repr, DecidableEq

/-- Execute a mutating SQL statement: the working store changes and the
connection now has an open write transaction. -/
def execS (f : Store → Store) (db : DB) : DB := ⟨f db.store, true⟩

/-- `self.coad.dbcon.commit()`. -/
def commit (db : DB) : DB := ⟨db.store, false⟩

/-- `COAD.get_config`: `SELECT value FROM config WHERE element=?`, raising
when no row matches. -/
def get_config (s : Store) (key : String) : Except String String :=
  match s.config.find? (fun r => r.element == key) with
  | Option.none => .error "No such config element"
  | some r => .ok r.value

/-- `COAD.set_config`: `UPDATE config SET value=? WHERE element=?` followed
by a commit.  An `UPDATE` matching zero rows is not an error. -/
def set_config (db : DB) (key value : String) : DB :=
  commit (execS (fun s =>
    { s with config := s.config.map (fun r =>
        if r.element == key then { r with value := value } else r) }) db)

/-! ### `ObjectDict.set_property` -/

/-- The `value` argument of `set_property`: Python dispatches on
`isinstance(value, list)`.  Scalar payloads are modelled as the text SQLite
stores for them. -/
inductive PyVal where
  | str (v : String)
  | list (vs : List String)
  deriving Repr, DecidableEq

def toListVal : PyVal → List String
  | .str v => [v]
  | .list vs => vs

/-- `set_property.get_mask_value`: walk the mask pairs in order, return the
raw code of the first pair whose (quote-stripped) display value equals the
supplied value; raise when nothing matches.  A falsy mask returns the value
unchanged. -/
def get_mask_value (value : String) (mask : Option String) : Except String String :=
  match truthyMask mask with
  | Option.none => .ok value
  | some m =>
      match (parseMaskPairs (pySplit ';' m)).find? (fun p => p.2 == value) with
      | some p => .ok p.1
      | Option.none => .error "Value not in property input_mask"

def mapMaskValues (mask : Option String) : List String → Except String (List String)
  | [] => .ok []
  | v :: rest =>
      match get_mask_value v mask with
      | .error e => .error e
      | .ok m =>
          match mapMaskValues mask rest with
          | .error e => .error e
          | .ok ms => .ok (m :: ms)

/-- `MAX(data_id)` over the `data` table. -/
def maxDataId (s : Store) : Nat := s.data.foldl (fun m d => max m d.data_id) 0

/-- `MAX(CAST(uid AS INTEGER))` over the `data` table. -/
def maxUid (s : Store) : Nat := s.data.foldl (fun m d => max m d.uid) 0

/-- `UPDATE property SET is_dynamic=<v> WHERE property_id=?`. -/
def updateDynamic (v : String) (pid : Nat) (s : Store) : Store :=
  { s with properties := s.properties.map (fun p =>
      if p.property_id == pid then { p with is_dynamic := v } else p) }

/-- `UPDATE property SET is_enabled=<v> WHERE property_id=?`. -/
def updateEnabled (v : String) (pid : Nat) (s : Store) : Store :=
  { s with properties := s.properties.map (fun p =>
      if p.property_id == pid then { p with is_enabled := v } else p) }

/-- The flag updates of the native / tagged-new-data paths, which use the
quoted literal `'true'`. -/
def updateFlagsQuoted (db : DB) (prop : PropertyRow) : DB :=
  let db1 := if prop.is_dynamic != "true" then execS (updateDynamic "true" prop.property_id) db
             else db
  if prop.is_enabled != "true" then execS (updateEnabled "true" prop.property_id) db1 else db1

/-- `UPDATE data SET value=? WHERE data_id=?`. -/
def updateDataValue (did : Nat) (v : String) (s : Store) : Store :=
  { s with data := s.data.map (fun d =>
      if d.data_id == did then { d with value := v } else d) }

/-- The insertion loop of the native zero-rows path: consecutive
`data_id`/`uid` values, a `band` row only for band indexes above 1, no
`tag` rows. -/
def insertNativeRows (memId propId : Nat) :
    Nat → Nat → Nat → List String → DB → DB
  | _, _, _, [], db => db
  | lastId, lastUid, band, v :: rest, db =>
      let db1 := execS (fun s =>
        { s with data := s.data ++ [⟨lastId + 1, lastUid + 1, memId, v, propId⟩] }) db
      let db2 := if band + 1 > 1 then
          execS (fun s => { s with bands := s.bands ++ [⟨lastId + 1, band + 1⟩] }) db1
        else db1
      insertNativeRows memId propId (lastId + 1) (lastUid + 1) (band + 1) rest db2

/-- The insertion loop of the tag-override new-data path: like the native
loop but each new data row additionally gets a `tag` row for the owner and
optionally one for the data tag. -/
def insertTaggedRows (memId propId tagObjId : Nat) (dataTagId : Option Nat) :
    Nat → Nat → Nat → List String → DB → DB
  | _, _, _, [], db => db
  | lastId, lastUid, band, v :: rest, db =>
      let db1 := execS (fun s =>
        { s with data := s.data ++ [⟨lastId + 1, lastUid + 1, memId, v, propId⟩] }) db
      let db2 := if band + 1 > 1 then
          execS (fun s => { s with bands := s.bands ++ [⟨lastId + 1, band + 1⟩] }) db1
        else db1
      let db3 := execS (fun s => { s with tags := s.tags ++ [⟨lastId + 1, tagObjId⟩] }) db2
      let db4 := match dataTagId with
        | some dtid => execS (fun s => { s with tags := s.tags ++ [⟨lastId + 1, dtid⟩] }) db3
        | Option.none => db3
      insertTaggedRows memId propId tagObjId dataTagId (lastId + 1) (lastUid + 1) (band + 1) rest db4

/-- The ordered `data_id` list of the native branch:
with a `uid` column, `SELECT data.data_id FROM data LEFT JOIN band ... WHERE
membership_id=? AND property_id=? ORDER BY band_id`; without one, plain
`ORDER BY data_id`. -/
def nativeDataIds (s : Store) (member : MembershipRow) (prop : PropertyRow) : List Nat :=
  let ds := s.data.filter (fun d =>
    d.membership_id == member.membership_id && d.property_id == prop.property_id)
  if s.has_data_uid then
    (sortBy (fun a b => bandLt a.2 b.2)
      (listJoinMap (fun d => (bandOpts s d.data_id).map (fun b => (d.data_id, b))) ds)).map
      (fun p => p.1)
  else
    (sortBy (fun a b => a.data_id < b.data_id) ds).map (fun d => d.data_id)

/-- Native path, zero existing rows: compute `MAX(data_id)`/`MAX(uid)`
(raising on an empty `data` table, where Python would crash adding 1 to
`None`), translate all values through the mask, set the property flags and
insert data/band rows.  Note: this path performs no commit before
returning. -/
def setPropNativeZero (db : DB) (prop : PropertyRow) (member : MembershipRow)
    (value : PyVal) : DB × Option String :=
  if db.store.data.isEmpty then (db, some "MAX over empty data table")
  else
    match mapMaskValues prop.input_mask (toListVal value) with
    | .error e => (db, some e)
    | .ok m_values =>
        let db1 := updateFlagsQuoted db prop
        (insertNativeRows member.membership_id prop.property_id
          (maxDataId db.store) (maxUid db.store) 0 m_values db1, Option.none)

/-- Native path, exactly one existing row: reject list values, otherwise
overwrite in place and commit. -/
def setPropNativeOne (db : DB) (prop : PropertyRow) (d0 : Nat) (value : PyVal) :
    DB × Option String :=
  match value with
  | .list _ => (db, some "Attempting to set list for a single data property.")
  | .str v =>
      match get_mask_value v prop.input_mask with
      | .error e => (db, some e)
      | .ok m => (commit (execS (updateDataValue d0 m) db), Option.none)

/-- The element-wise overwrite loop of the native multi-row path: each
element is translated, written and committed in turn, so a translation
failure mid-list leaves the earlier writes in place (the documented
non-atomicity). -/
def overwriteLoop (prop : PropertyRow) : List (String × Nat) → DB → DB × Option String
  | [], db => (db, Option.none)
  | (v, did) :: rest, db =>
      match get_mask_value v prop.input_mask with
      | .error e => (db, some e)
      | .ok m => overwriteLoop prop rest (commit (execS (updateDataValue did m) db))

/-- Native path, more than one existing row: require a list of matching
length and overwrite element-wise in the ordered `data_id` list. -/
def setPropNativeMany (db : DB) (prop : PropertyRow) (ids : List Nat) (value : PyVal) :
    DB × Option String :=
  match value with
  | .str _ => (db, some "Attempting to set a single value for a list data property.")
  | .list vs =>
      if vs.length != ids.length then
        (db, some "Length of values passed in does not match set data list")
      else overwriteLoop prop (vs.zip ids) db

/-- The native branch of `set_property` (the tag's class declares the
property): property lookup, membership lookup, then dispatch on the number
of existing data rows. -/
def setPropNative (db : DB) (obj : ObjectRow) (name : String) (value : PyVal)
    (tag_obj : ObjectRow) (tagCls : String) : DB × Option String :=
  match lookupValidProp db.store obj.class_id tagCls name with
  | Option.none => (db, some "not a valid property for class")
  | some prop =>
      match db.store.memberships.find? (fun m =>
        m.child_object_id == obj.object_id && m.parent_object_id == tag_obj.object_id) with
      | Option.none => (db, some "Unable to find membership")
      | some member =>
          match nativeDataIds db.store member prop with
          | [] => setPropNativeZero db prop member value
          | [d0] => setPropNativeOne db prop d0 value
          | ids => setPropNativeMany db prop ids value

/-- The search loop over `SELECT data_id FROM tag WHERE object_id=?` of the
tag-override branch: find the first tagged data row whose property name and
membership child match; a dangling reference (where Python would crash on a
`None` fetch) raises. -/
def taggedSearch (s : Store) (obj : ObjectRow) (name : String) :
    List TagRow → Except String (Option (TagRow × PropertyRow))
  | [] => .ok Option.none
  | ptag :: rest =>
      match s.data.find? (fun d => d.data_id == ptag.data_id) with
      | Option.none => .error "No data row for tag"
      | some pd =>
          match s.properties.find? (fun p => p.property_id == pd.property_id) with
          | Option.none => .error "No property row for data"
          | some pprop =>
              if pprop.name == name then
                match s.memberships.find? (fun m => m.membership_id == pd.membership_id) with
                | Option.none => .error "No membership row for data"
                | some pm =>
                    if pm.child_object_id == obj.object_id then .ok (some (ptag, pprop))
                    else taggedSearch s obj name rest
              else taggedSearch s obj name rest

def resolveDataTag (s : Store) : Option String → Except String (Option Nat)
  | Option.none => .ok Option.none
  | some h =>
      match get_by_hierarchy s h with
      | Option.none => .error "No such data tag hierarchy"
      | some o => .ok (some o.object_id)

/-- Tag-override path when no existing tagged row matched: allocate new
data under the `System.System` membership, tag it with the owner (and the
optional data tag), commit, then `set_config("Dynamic", "-1")` (which
commits again). -/
def setPropTaggedNew (db : DB) (obj : ObjectRow) (name : String) (value : PyVal)
    (tag_obj : ObjectRow) (data_tag : Option String) : DB × Option String :=
  match lookupValidProp db.store obj.class_id "System" name with
  | Option.none => (db, some "KeyError in System valid properties")
  | some prop =>
      if db.store.data.isEmpty then (db, some "MAX over empty data table")
      else
        match get_by_hierarchy db.store "System.System" with
        | Option.none => (db, some "No such hierarchy System.System")
        | some sys_obj =>
            match db.store.memberships.find? (fun m =>
              m.child_object_id == obj.object_id &&
                m.parent_object_id == sys_obj.object_id) with
            | Option.none => (db, some "No System membership for object")
            | some member =>
                match mapMaskValues prop.input_mask (toListVal value) with
                | .error e => (db, some e)
                | .ok m_values =>
                    match resolveDataTag db.store data_tag with
                    | .error e => (db, some e)
                    | .ok dataTagId =>
                        let db1 := updateFlagsQuoted db prop
                        let db2 := insertTaggedRows member.membership_id prop.property_id
                          tag_obj.object_id dataTagId (maxDataId db.store) (maxUid db.store)
                          0 m_values db1
                        (set_config (commit db2) "Dynamic" "-1", Option.none)

/-- Tag-override branch of `set_property` (the tag's class does not declare
the property): try to overwrite an existing tagged data row (rejecting list
values; the flag updates here use the unquoted SQL literal `true`, which
SQLite stores as the text `1` under TEXT affinity), else create new tagged
data. -/
def setPropTagged (db : DB) (obj : ObjectRow) (name : String) (value : PyVal)
    (tag_obj : ObjectRow) (data_tag : Option String) : DB × Option String :=
  match taggedSearch db.store obj name
    (db.store.tags.filter (fun t => t.object_id == tag_obj.object_id)) with
  | .error e => (db, some e)
  | .ok (some (ptag, pprop)) =>
      match value with
      | .list _ => (db, some "Overwriting list of tagged data is not supported yet")
      | .str v =>
          match get_mask_value v pprop.input_mask with
          | .error e => (db, some e)
          | .ok m =>
              let db1 := if pprop.is_dynamic != "true" then
                  execS (updateDynamic "1" pprop.property_id) db
                else db
              let db2 := if pprop.is_enabled != "true" then
                  execS (updateEnabled "1" pprop.property_id) db1
                else db1
              (commit (execS (updateDataValue ptag.data_id m) db2), Option.none)
  | .ok Option.none => setPropTaggedNew db obj name value tag_obj data_tag

/-- `ObjectDict.set_property(name, value, tag, data_tag)`. -/
def set_property (db : DB) (obj : ObjectRow) (name : String) (value : PyVal)
    (tag : String) (data_tag : Option String) : DB × Option String :=
  match get_by_hierarchy db.store tag with
  | Option.none => (db, some "No such hierarchy")
  | some tag_obj =>
      match classNameOf db.store tag_obj.class_id with
      | Option.none => (db, some "No class for tag object")
      | some tagCls =>
          if (validPropsFor db.store obj.class_id tagCls).isEmpty then
            setPropTagged db obj name value tag_obj data_tag
          else
            setPropNative db obj name value tag_obj tagCls

/-! ### `delete_property`, `tag_property`, `untag_property` -/

/-- The per-`data_id` fan-out deletion of `delete_property`: text, tag,
band, then the data row itself. -/
def deleteFanout : List Nat → DB → DB
  | [], db => db
  | did :: rest, db =>
      deleteFanout rest (execS (fun s =>
        { s with
            texts := s.texts.filter (fun t => t.data_id != did)
            tags := s.tags.filter (fun t => t.data_id != did)
            bands := s.bands.filter (fun b => b.data_id != did)
            data := s.data.filter (fun d => d.data_id != did) }) db)

/-- `ObjectDict.delete_property(name, tag)`: delete the fan-out of every
matching view row, then commit (also when nothing matched). -/
def delete_property (db : DB) (obj : ObjectRow) (name : String) (tag : String) :
    DB × Option String :=
  match get_by_hierarchy db.store tag with
  | Option.none => (db, some "No such hierarchy")
  | some tag_obj =>
      let ids := ((property_view db.store).filter
        (getMatch obj.object_id name tag_obj.object_id)).map (fun r => r.data_id)
      (commit (deleteFanout ids db), Option.none)

/-- The guard `tag_obj.meta['object_id'] == '1'` of `tag_property`: the
`object_id` fetched from the INTEGER-typed `object` table is a Python
`int`, and `int == str` is always `False` in Python, so this comparison
never succeeds for any object. -/
def pyIntEqStr (_n : Nat) (_s : String) : Bool := false

/-- SQL `GROUP BY data_id` over the selected ids: one row per distinct id
(modelled in first-occurrence order, then sorted ascending as SQLite's
grouping emits them). -/
def groupIds (l : List Nat) : List Nat := sortBy (fun a b => a < b) (dedupAux [] l)

/-- `ObjectDict.tag_property(name, tag)`: insert a `tag` row for every
matching data row not already tagged with the object, then commit.  The
documented refusal to tag with `System.System` compares an `int` to the
string `'1'` and therefore never fires. -/
def tag_property (db : DB) (obj : ObjectRow) (name : String) (tag : String) :
    DB × Option String :=
  match get_by_hierarchy db.store tag with
  | Option.none => (db, some "No such hierarchy")
  | some tag_obj =>
      if pyIntEqStr tag_obj.object_id "1" then (db, some "Cannot tag with System object")
      else
        let tagged := ((property_view db.store).filter
          (fun r => r.tag_object_id == some tag_obj.object_id)).map (fun r => r.data_id)
        let ids := groupIds (((property_view db.store).filter (fun r =>
          r.child_object_id == obj.object_id && r.name == name &&
            !(tagged.contains r.data_id))).map (fun r => r.data_id))
        let db1 := if ids.isEmpty then db
          else execS (fun s =>
            { s with tags := s.tags ++ ids.map (fun d => ⟨d, tag_obj.object_id⟩) }) db
        (commit db1, Option.none)

/-- `ObjectDict.untag_property(name, tag)`: delete the matching `tag` rows.
The guard here compares against the integer `1`, so `System.System` is
genuinely refused — and no commit is ever issued. -/
def untag_property (db : DB) (obj : ObjectRow) (name : String) (tag : String) :
    DB × Option String :=
  match get_by_hierarchy db.store tag with
  | Option.none => (db, some "No such hierarchy")
  | some tag_obj =>
      if tag_obj.object_id == 1 then (db, some "Cannot untag System object")
      else
        let ids := ((property_view db.store).filter (fun r =>
          r.child_object_id == obj.object_id && r.name == name &&
            r.tag_object_id == some tag_obj.object_id)).map (fun r => r.data_id)
        if ids.isEmpty then (db, Option.none)
        else
          (execS (fun s =>
            { s with tags := s.tags.filter (fun t =>
                !(ids.contains t.data_id && t.object_id == tag_obj.object_id)) }) db,
           Option.none)

/-! ### The generic table store of `plexos_database.py` -/

/-- One discovered table: declared column order, rows as positional lists of
cells (`Option.none` is SQL `NULL`, the value a never-supplied sparse field
takes), and the foreign-key declarations present at (re)creation time. -/
structure GTable where
  cols : List String
  rows : List (List (Option String))
  fks : List String
  deriving Repr, DecidableEq

/-- The loader-level database: named tables plus the set of
`(table, column)` lookup indexes created so far. -/
structure LDB where
  tables : List (String × GTable)
  indexes : List (String × String)
  deriving Repr, DecidableEq

def lookupTable (l : LDB) (n : String) : Option GTable :=
  (l.tables.find? (fun t => t.1 == n)).map (fun t => t.2)

/-- `DROP TABLE IF EXISTS n`. -/
def dropTable (l : LDB) (n : String) : LDB :=
  { l with tables := l.tables.filter (fun t => t.1 != n) }

/-- `ALTER TABLE o RENAME TO n`. -/
def renameTable (l : LDB) (o n : String) : LDB :=
  { l with tables := l.tables.map (fun t => if t.1 == o then (n, t.2) else t) }

/-- `CREATE TABLE n(...)` with the given columns and foreign-key clauses. -/
def createTable (l : LDB) (n : String) (cols fks : List String) : LDB :=
  { l with tables := l.tables ++ [(n, ⟨cols, [], fks⟩)] }

/-- `INSERT INTO dst SELECT * FROM src`: append the source rows, in stored
order, to the destination. -/
def insertSelectAll (l : LDB) (dst src : String) : LDB :=
  match lookupTable l src with
  | none => l
  | some st =>
      { l with tables := l.tables.map (fun t =>
          if t.1 == dst then (t.1, { t.2 with rows := t.2.rows ++ st.rows }) else t) }

/-- The deferred foreign-key migration of `load` for one table: drop any
stale `<n>_todelete`, rename the table aside, recreate it under its own
name with the same column list plus the foreign-key clauses, copy all rows
back with `INSERT ... SELECT *`, and drop the renamed original. -/
def rebuildTable (l : LDB) (n : String) (fkcols : List String) : LDB :=
  let tmp := n ++ "_todelete"
  let l1 := dropTable l tmp
  let l2 := renameTable l1 n tmp
  match lookupTable l2 tmp with
  | none => l2
  | some t =>
      let l3 := dropTable l2 n
      let l4 := createTable l3 n t.cols fkcols
      let l5 := insertSelectAll l4 n tmp
      dropTable l5 tmp

/-- The index pass after the rebuilds: `CREATE INDEX ... ON t(c)` for every
candidate foreign key recorded during ingestion. -/
def createFkIndexes (l : LDB) (forkeys : List (String × String)) : LDB :=
  { l with indexes := l.indexes ++ forkeys }

/-! ### The serializer of `plexos_database.save` -/

def META_TABLE : String := "plexos_meta"

/-- One emitted `<t_tablename>` record: the table it belongs to and its
present (non-`NULL`) fields in column order. -/
structure XRecord where
  table : String
  fields : List (String × String)
  deriving Repr, DecidableEq

/-- The structured output of `save`: the root element, the namespace
written in the root tag, and the flat record sequence in emission order
(the XML text writer around it is a collaborator). -/
structure SaveOut where
  root : String
  ns : String
  records : List XRecord
  deriving Repr, DecidableEq

def colIndex (cols : List String) (c : String) : Option Nat :=
  cols.findIdx? (fun x => x == c)

def cellAt (r : List (Option String)) (i : Nat) : Option String :=
  (r.get? i).join

/-- `plexos_meta` as the dict `save` builds from `SELECT name, value`: the
(name, value) pairs in row order (rows whose `name` is `NULL` are
dropped). -/
def metaDict (t : GTable) : List (String × Option String) :=
  match colIndex t.cols "name", colIndex t.cols "value" with
  | some ni, some vi =>
      t.rows.filterMap (fun r => (cellAt r ni).map (fun k => (k, cellAt r vi)))
  | _, _ => []

/-- Python-dict lookup over insertion-ordered pairs: last assignment wins. -/
def assocLast (pairs : List (String × Option String)) (k : String) : Option (Option String) :=
  ((pairs.filter (fun p => p.1 == k)).getLast?).map (fun p => p.2)

/-- `'%s' % v` for a value that may be Python `None`. -/
def pyStr : Option String → String
  | some s => s
  | none => "None"

/-- One row flattened to its record fields: `zip(row_keys, row)` skipping
`None` cells, so field order follows column declaration order and exactly
the unset fields are omitted. -/
def rowFields (cols : List String) (r : List (Option String)) : List (String × String) :=
  (cols.zip r).filterMap (fun p => p.2.map (fun v => (p.1, v)))

def emitTable (n : String) (t : GTable) : List XRecord :=
  t.rows.map (fun r => ⟨n, rowFields t.cols r⟩)

/-- Lexical string order (Python `sorted` on table names). -/
def strLt (a b : String) : Bool := decide (a < b)

/-- The root element and namespace `save` writes: read from the metadata
table when it exists (a missing `root_element`/`namespace` key is a Python
`KeyError`), hard-coded defaults otherwise. -/
def saveMeta (l : LDB) : Except String (String × String) :=
  match lookupTable l META_TABLE with
  | none => .ok ("MasterDataSet", "http://tempuri.org/MasterDataSet.xsd")
  | some mt =>
      match assocLast (metaDict mt) "root_element" with
      | none => .error "KeyError root_element"
      | some rv =>
          match assocLast (metaDict mt) "namespace" with
          | none => .error "KeyError namespace"
          | some nv => .ok (pyStr rv, pyStr nv)

/-- `plexos_database.save`: iterate the table names in sorted order,
skipping the metadata table and names that fail to `SELECT`, emitting each
table's rows in stored order. -/
def save (l : LDB) : Except String SaveOut :=
  match saveMeta l with
  | .error e => .error e
  | .ok (root, ns) =>
      let names := sortBy strLt (l.tables.map (fun t => t.1))
      .ok ⟨root, ns,
        listJoinMap (fun n =>
          if n == META_TABLE then []
          else
            match lookupTable l n with
            | none => []
            | some t => emitTable n t) names⟩

/-- Modelled from the spec (§4.4 Serializer), for comparison with `save`:
"enumerate all tables of the store in a stable (lexical table-name) order;
for each, emit rows in table-native row order as a flat record whose field
order matches column declaration order, omitting fields whose value is
unset"; the metadata table is the serializer's own bookkeeping and is not
part of the record stream. -/
def saveSpec (l : LDB) (root ns : String) : SaveOut :=
  ⟨root, ns,
    listJoinMap (fun t => emitTable t.1 t.2)
      ((sortBy (fun a b => strLt a.1 b.1) l.tables).filter (fun t => t.1 != META_TABLE))⟩

/-! ### Store well-formedness

The invariants the SQLite schema guarantees and the proofs rely on:
primary-key uniqueness for `data`/`property`/`membership`, and the
foreign-key containment of `band`/`tag`/`text` references created by the
loader's rebuild pass. -/

def WF (s : Store) : Prop :=
  (s.data.map (fun d => d.data_id)).Nodup ∧
  (s.properties.map (fun p => p.property_id)).Nodup ∧
  (s.memberships.map (fun m => m.membership_id)).Nodup ∧
  (∀ b ∈ s.bands, ∃ d ∈ s.data, b.data_id = d.data_id) ∧
  (∀ t ∈ s.tags, ∃ d ∈ s.data, t.data_id = d.data_id) ∧
  (∀ t ∈ s.texts, ∃ d ∈ s.data, t.data_id = d.data_id)

instance (s : Store) : Decidable (WF s) := by
  unfold WF; infer_instance

/-! ### Concrete stores used by witnesses and counterexamples -/

/-- The `"0";"Off";"1";"On"` mask of the spec's round-trip example. -/
def onOffMask : String := "\"0\";\"Off\";\"1\";\"On\""

def sysObj : ObjectRow := ⟨1, 1, "System"⟩
def genObj : ObjectRow := ⟨2, 2, "Gen1"⟩
def scenObj : ObjectRow := ⟨3, 3, "Scen1"⟩

def propP : PropertyRow := ⟨1, 1, "P", Option.none, "true", "true"⟩
def propM : PropertyRow := ⟨2, 1, "M", some onOffMask, "true", "true"⟩
def memb1 : MembershipRow := ⟨1, 1, 1, 1, 2, 2⟩

/-- Skeleton store: System/Generator/Scenario classes, one generator under
`System.System`, two System-owned generator properties (`P` unmasked, `M`
with the On/Off mask). -/
def baseStore : Store where
  classes := [⟨1, "System"⟩, ⟨2, "Generator"⟩, ⟨3, "Scenario"⟩]
  objects := [sysObj, genObj, scenObj]
  collections := [⟨1, 1, 2⟩]
  properties := [propP, propM]
  memberships := [memb1]
  data := []
  bands := []
  tags := []
  texts := []
  config := [⟨"Dynamic", "0"⟩]
  hasDataTable := true
  has_data_uid := true

/-- `P` has no data yet; one unrelated data row for `M` keeps the `data`
table non-empty. -/
def storeZero : Store := { baseStore with data := [⟨1, 1, 1, "7", 2⟩] }

/-- Exactly one data row for `P`. -/
def storeOne : Store := { baseStore with data := [⟨1, 1, 1, "5", 1⟩] }

/-- Exactly one data row for the masked property `M`, holding the raw code
paired with display value `Off`. -/
def storeMask : Store := { baseStore with data := [⟨1, 1, 1, "\"0\"", 2⟩] }

/-- Two data rows for `P`, the second in band 2. -/
def storeTwo : Store :=
  { baseStore with data := [⟨1, 1, 1, "5", 1⟩, ⟨2, 2, 1, "6", 1⟩], bands := [⟨2, 2⟩] }

/-- One data row for `P`, tagged with the scenario object. -/
def storeTagged : Store := { storeOne with tags := [⟨1, 3⟩] }

/-- A store whose source file produced no `data` table at all. -/
def storeNoData : Store where
  classes := [⟨1, "System"⟩, ⟨2, "Generator"⟩]
  objects := [sysObj, genObj]
  collections := [⟨1, 1, 2⟩]
  properties := [propP]
  memberships := [memb1]
  data := []
  bands := []
  tags := []
  texts := []
  config := []
  hasDataTable := false
  has_data_uid := false

/-- Loader-level store for the serializer/rebuild witnesses. -/
def ldb1 : LDB where
  tables :=
    [("data", ⟨["data_id", "uid", "value", "membership_id"],
        [[some "1", some "1", some "5", some "1"],
         [some "2", Option.none, some "6", some "1"]], []⟩),
     ("membership", ⟨["membership_id"], [[some "1"]], []⟩),
     ("plexos_meta", ⟨["plexos_meta_id", "name", "value"],
        [[some "1", some "namespace", some "http://tempuri.org/MasterDataSet.xsd"],
         [some "2", some "root_element", some "MasterDataSet"]], []⟩)]
  indexes := []

/-- The name/mask projection of a property row (all `property_view` reads). -/
def propNM (p : PropertyRow) : String × Option String := (p.name, p.input_mask)

/-- Two property tables that agree, per `property_id`, on whether a row is
found and on its name and mask. -/
def propsNMEq (l₁ l₂ : List PropertyRow) : Prop :=
  ∀ k, (l₁.find? (fun p => p.property_id == k)).map propNM =
       (l₂.find? (fun p => p.property_id == k)).map propNM

/-- The translation dict built from a property's `input_mask` (empty when
the mask is falsy). -/
def maskPairs (pm : Option String) : List (String × String) :=
  match truthyMask pm with
  | Option.none => []
  | some m => parseMaskPairs (pySplit ';' m)

/-- Sequential `UPDATE data SET value=? WHERE data_id=?` statements, one per
`(value, data_id)` pair, in list order. -/
def applyValueUpdates (pairs : List (String × Nat)) (s : Store) : Store :=
  pairs.foldl (fun acc p => updateDataValue p.2 p.1 acc) s

/-! ### Generic lemmas -/

theorem mem_of_getLast?_eq {α : Type} {l : List α} {a : α} (h : l.getLast? = some a) :
    a ∈ l := by
  induction l with
  | nil => simp at h
  | cons b t ih =>
      cases t with
      | nil => simp at h; simp [h]
      | cons c u =>
          rw [List.getLast?_cons_cons] at h
          exact List.mem_cons_of_mem _ (ih h)

theorem find?_map_pred {α : Type} (f : α → α) (p : α → Bool) (l : List α)
    (h : ∀ a, p (f a) = p a) : (l.map f).find? p = (l.find? p).map f := by
  induction l with
  | nil => rfl
  | cons a t ih =>
      cases hpa : p a with
      | true => simp [List.find?_cons, h a, hpa]
      | false => simp [List.find?_cons, h a, hpa, ih]

theorem find?_eq_of_nodup_key {α κ : Type} [DecidableEq κ] (key : α → κ) {l : List α} {a : α}
    (ha : a ∈ l) (hnd : (l.map key).Nodup) : l.find? (fun x => key x == key a) = some a := by
  induction l with
  | nil => simp at ha
  | cons b t ih =>
      simp only [List.map_cons, List.nodup_cons] at hnd
      rcases List.mem_cons.mp ha with rfl | hat
      · simp [List.find?_cons]
      · have hne : key b ≠ key a := fun he => hnd.1 (he ▸ List.mem_map_of_mem key hat)
        have hfalse : (key b == key a) = false := by simp [hne]
        simp [List.find?_cons, hfalse, ih hat hnd.2]

theorem foldl_max_le_init {α : Type} (key : α → Nat) (l : List α) (init : Nat) :
    init ≤ l.foldl (fun m x => max m (key x)) init := by
  induction l generalizing init with
  | nil => simp
  | cons a t ih =>
      simp only [List.foldl_cons]
      exact le_trans (le_max_left _ _) (ih (max init (key a)))

theorem le_foldl_max {α : Type} (key : α → Nat) {l : List α} {a : α} (ha : a ∈ l)
    (init : Nat) : key a ≤ l.foldl (fun m x => max m (key x)) init := by
  induction l generalizing init with
  | nil => simp at ha
  | cons b t ih =>
      simp only [List.foldl_cons]
      rcases List.mem_cons.mp ha with rfl | hat
      · exact le_trans (le_max_right _ _) (foldl_max_le_init key t (max init (key a)))
      · exact ih hat _

theorem mem_insertBy {α : Type} {lt : α → α → Bool} {a x : α} {l : List α} :
    x ∈ insertBy lt a l ↔ x = a ∨ x ∈ l := by
  induction l with
  | nil => simp [insertBy]
  | cons b t ih =>
      simp only [insertBy]
      by_cases h : lt b a
      · simp [h, ih]; tauto
      · simp [h]

theorem mem_sortBy {α : Type} {lt : α → α → Bool} {x : α} {l : List α} :
    x ∈ sortBy lt l ↔ x ∈ l := by
  induction l with
  | nil => simp
  | cons a t ih => simp [sortBy, mem_insertBy, ih]

theorem insertBy_map {α β : Type} (f : α → β) (lt : β → β → Bool) (a : α) (l : List α) :
    insertBy lt (f a) (l.map f) = (insertBy (fun x y => lt (f x) (f y)) a l).map f := by
  induction l with
  | nil => rfl
  | cons b t ih =>
      simp only [List.map_cons, insertBy]
      by_cases h : lt (f b) (f a) <;> simp [h, ih]

theorem sortBy_map {α β : Type} (f : α → β) (lt : β → β → Bool) (l : List α) :
    sortBy lt (l.map f) = (sortBy (fun x y => lt (f x) (f y)) l).map f := by
  induction l with
  | nil => rfl
  | cons a t ih => simp only [List.map_cons, sortBy, ih, insertBy_map]

theorem listJoinMap_map {α β γ : Type} (g : α → β) (f : β → List γ) (l : List α) :
    listJoinMap f (l.map g) = listJoinMap (fun a => f (g a)) l := by
  induction l with
  | nil => rfl
  | cons a t ih => simp [ih]

theorem map_listJoinMap {α β γ : Type} (f : α → List β) (g : β → γ) (l : List α) :
    (listJoinMap f l).map g = listJoinMap (fun a => (f a).map g) l := by
  induction l with
  | nil => rfl
  | cons a t ih => simp [ih]

theorem listJoinMap_guard {α β : Type} (c : α → Bool) (f : α → List β) (l : List α) :
    listJoinMap (fun a => if c a then [] else f a) l =
      listJoinMap f (l.filter (fun a => !c a)) := by
  induction l with
  | nil => rfl
  | cons a t ih => by_cases h : c a <;> simp [h, ih]

theorem filter_listJoinMap {α β : Type} (p : β → Bool) (f : α → List β) (l : List α) :
    (listJoinMap f l).filter p = listJoinMap (fun a => (f a).filter p) l := by
  induction l with
  | nil => rfl
  | cons a t ih => simp [List.filter_append, ih]

/-! ### Store-level helper lemmas -/

theorem mem_of_mem_listJoinMap {α β : Type} {f : α → List β} {l : List α} {b : β}
    (h : b ∈ listJoinMap f l) : ∃ a ∈ l, b ∈ f a := by
  induction l with
  | nil => simp at h
  | cons a t ih =>
      simp only [listJoinMap_cons, List.mem_append] at h
      rcases h with h | h
      · exact ⟨a, by simp, h⟩
      · rcases ih h with ⟨x, hx, hb⟩
        exact ⟨x, by simp [hx], hb⟩

theorem data_id_le_maxDataId {s : Store} {d : DataRow} (hd : d ∈ s.data) :
    d.data_id ≤ maxDataId s :=
  le_foldl_max (fun d => d.data_id) hd 0

theorem tagOpts_congr {s s' : Store} (h : s'.tags = s.tags) : tagOpts s' = tagOpts s := by
  funext did; simp [tagOpts, h]

theorem textOpts_congr {s s' : Store} (h : s'.texts = s.texts) : textOpts s' = textOpts s := by
  funext did; simp [textOpts, h]

theorem bandOpts_congr {s s' : Store} (h : s'.bands = s.bands) : bandOpts s' = bandOpts s := by
  funext did; simp [bandOpts, h]

theorem propsNMEq_refl (l : List PropertyRow) : propsNMEq l l := fun _ => rfl

theorem propsNMEq_trans {l₁ l₂ l₃ : List PropertyRow}
    (h₁ : propsNMEq l₁ l₂) (h₂ : propsNMEq l₂ l₃) : propsNMEq l₁ l₃ :=
  fun k => (h₁ k).trans (h₂ k)

theorem propsNMEq_updateDynamic (v : String) (pid : Nat) (l : List PropertyRow) :
    propsNMEq (l.map (fun p =>
      if p.property_id == pid then { p with is_dynamic := v } else p)) l := by
  intro k
  rw [find?_map_pred _ _ _ (fun a => by by_cases h : a.property_id == pid <;> simp [h])]
  cases l.find? (fun p => p.property_id == k) with
  | none => rfl
  | some p =>
      show some (propNM _) = some (propNM p)
      congr 1
      unfold propNM
      by_cases h : (p.property_id == pid) = true <;> simp [h]

theorem propsNMEq_updateEnabled (v : String) (pid : Nat) (l : List PropertyRow) :
    propsNMEq (l.map (fun p =>
      if p.property_id == pid then { p with is_enabled := v } else p)) l := by
  intro k
  rw [find?_map_pred _ _ _ (fun a => by by_cases h : a.property_id == pid <;> simp [h])]
  cases l.find? (fun p => p.property_id == k) with
  | none => rfl
  | some p =>
      show some (propNM _) = some (propNM p)
      congr 1
      unfold propNM
      by_cases h : (p.property_id == pid) = true <;> simp [h]

/-- All store fields other than `properties` are untouched by the flag
updates, and the updated properties keep their id, name and mask. -/
theorem updateFlagsQuoted_fields (db : DB) (prop : PropertyRow) :
    (updateFlagsQuoted db prop).store.data = db.store.data ∧
    (updateFlagsQuoted db prop).store.bands = db.store.bands ∧
    (updateFlagsQuoted db prop).store.tags = db.store.tags ∧
    (updateFlagsQuoted db prop).store.texts = db.store.texts ∧
    (updateFlagsQuoted db prop).store.memberships = db.store.memberships ∧
    (updateFlagsQuoted db prop).store.classes = db.store.classes ∧
    (updateFlagsQuoted db prop).store.objects = db.store.objects ∧
    (updateFlagsQuoted db prop).store.config = db.store.config ∧
    (updateFlagsQuoted db prop).store.hasDataTable = db.store.hasDataTable ∧
    (updateFlagsQuoted db prop).store.has_data_uid = db.store.has_data_uid ∧
    propsNMEq (updateFlagsQuoted db prop).store.properties db.store.properties := by
  unfold updateFlagsQuoted
  by_cases h1 : prop.is_dynamic != "true"
  · by_cases h2 : prop.is_enabled != "true"
    · rw [if_pos h1, if_pos h2]
      exact ⟨rfl, rfl, rfl, rfl, rfl, rfl, rfl, rfl, rfl, rfl,
        propsNMEq_trans (propsNMEq_updateEnabled "true" prop.property_id _)
          (propsNMEq_updateDynamic "true" prop.property_id _)⟩
    · rw [if_pos h1, if_neg h2]
      exact ⟨rfl, rfl, rfl, rfl, rfl, rfl, rfl, rfl, rfl, rfl,
        propsNMEq_updateDynamic "true" prop.property_id _⟩
  · by_cases h2 : prop.is_enabled != "true"
    · rw [if_neg h1, if_pos h2]
      exact ⟨rfl, rfl, rfl, rfl, rfl, rfl, rfl, rfl, rfl, rfl,
        propsNMEq_updateEnabled "true" prop.property_id _⟩
    · rw [if_neg h1, if_neg h2]
      exact ⟨rfl, rfl, rfl, rfl, rfl, rfl, rfl, rfl, rfl, rfl, propsNMEq_refl _⟩

/-- `get_by_hierarchy` reads only the `class` and `object` tables. -/
theorem get_by_hierarchy_congr {s s' : Store} (hc : s'.classes = s.classes)
    (ho : s'.objects = s.objects) (h : String) :
    get_by_hierarchy s' h = get_by_hierarchy s h := by
  unfold get_by_hierarchy
  rw [hc, ho]

theorem lookupValidProp_mem {s : Store} {cid : Nat} {pn nm : String} {prop : PropertyRow}
    (hp : lookupValidProp s cid pn nm = some prop) :
    prop ∈ validPropsFor s cid pn ∧ (prop.name == nm) = true := by
  unfold lookupValidProp at hp
  exact ⟨(List.mem_filter.mp (mem_of_getLast?_eq hp)).1,
         (List.mem_filter.mp (mem_of_getLast?_eq hp)).2⟩

/-- A successful `lookupValidProp` means the parent-name key exists in
`valid_properties_by_name`, i.e. the class is a native owner. -/
theorem validPropsFor_isEmpty_false {s : Store} {cid : Nat} {pn nm : String}
    {prop : PropertyRow} (hp : lookupValidProp s cid pn nm = some prop) :
    (validPropsFor s cid pn).isEmpty = false := by
  have hmem := (lookupValidProp_mem hp).1
  cases hv : validPropsFor s cid pn with
  | nil => rw [hv] at hmem; simp at hmem
  | cons a t => rfl

theorem mem_properties_of_validPropsFor {s : Store} {cid : Nat} {pn : String}
    {prop : PropertyRow} (h : prop ∈ validPropsFor s cid pn) : prop ∈ s.properties := by
  unfold validPropsFor at h
  rcases mem_of_mem_listJoinMap h with ⟨c, _, hc⟩
  exact (List.mem_filter.mp hc).1

theorem nativeDataIds_nil {s : Store} {member : MembershipRow} {prop : PropertyRow}
    (hzero : s.data.filter (fun d =>
      d.membership_id == member.membership_id && d.property_id == prop.property_id) = []) :
    nativeDataIds s member prop = [] := by
  unfold nativeDataIds
  rw [hzero]
  cases s.has_data_uid <;> simp

theorem mapMaskValues_noMask {mask : Option String} (h : truthyMask mask = Option.none) :
    ∀ vs : List String, mapMaskValues mask vs = .ok vs := by
  intro vs
  induction vs with
  | nil => rfl
  | cons v t ih => simp [mapMaskValues, get_mask_value, h, ih]

theorem valmap_nil (v : String) : valmap [] v = v := rfl

/-! ### Claim C10 -/

/-- C10: for every store whose ingested file produced no `data` table,
`get_property` returns `None` and `get_properties` returns an empty map for
every object, property name and tag, instead of raising. -/
theorem c10_missing_data_table (s : Store) (obj : ObjectRow) (name tag : String)
    (h : s.hasDataTable = false) :
    get_property s obj name tag = .ok .none ∧ get_properties s obj = .ok [] := by
  constructor
  · unfold get_property
    simp [h]
  · unfold get_properties
    simp [h]

theorem c10_missing_data_table_witness :
    storeNoData.hasDataTable = false ∧
      (get_property storeNoData genObj "P" "Bogus.Bogus" = .ok .none ∧
        get_properties storeNoData genObj = .ok []) :=
  ⟨rfl, c10_missing_data_table storeNoData genObj "P" "Bogus.Bogus" rfl⟩

/-! ### Claim C6 -/

/-- C6 counterexample: on a store whose config table has no `Nope` row,
`set_config` does not raise — it returns normally, leaving the config table
unchanged (the `UPDATE` matches zero rows), contradicting the claim that
`set_config` on an absent key raises an error. -/
theorem c6_set_config_counterexample :
    storeZero.config.find? (fun r => r.element == "Nope") = Option.none ∧
    set_config ⟨storeZero, false⟩ "Nope" "9" = ⟨storeZero, false⟩ := by
  constructor
  · rfl
  · decide

/-- C6 amended: `get_config` raises exactly on an absent key and returns the
stored value of a present key; `set_config` on an absent key silently leaves
the config table unchanged (no error), and on a present key stores the value
so that `get_config` returns it. -/
theorem c6_config_amended :
    (∀ (s : Store) (key : String),
      s.config.find? (fun r => r.element == key) = Option.none →
        get_config s key = .error "No such config element") ∧
    (∀ (s : Store) (key : String) (r : ConfigRow),
      s.config.find? (fun r => r.element == key) = some r →
        get_config s key = .ok r.value) ∧
    (∀ (db : DB) (key value : String),
      db.store.config.find? (fun r => r.element == key) = Option.none →
        (set_config db key value).store.config = db.store.config) ∧
    (∀ (db : DB) (key value : String) (r : ConfigRow),
      db.store.config.find? (fun r => r.element == key) = some r →
        get_config (set_config db key value).store key = .ok value) := by
  refine ⟨?_, ?_, ?_, ?_⟩
  · intro s key h
    unfold get_config
    rw [h]
  · intro s key r h
    unfold get_config
    rw [h]
  · intro db key value h
    show db.store.config.map _ = db.store.config
    have hall := List.find?_eq_none.mp h
    calc db.store.config.map (fun r =>
          if r.element == key then { r with value := value } else r)
        = db.store.config.map id := by
          apply List.map_congr_left
          intro a ha
          simp [hall a ha]
      _ = db.store.config := List.map_id _
  · intro db key value r h
    have hfind := find?_map_pred
      (fun x => if x.element == key then { x with value := value } else x)
      (fun x => x.element == key) db.store.config
      (fun a => by by_cases hx : (a.element == key) = true <;> simp [hx])
    have hr := List.find?_some h
    unfold get_config set_config commit execS
    simp only [hfind, h, Option.map_some']
    simp [hr]

theorem c6_config_amended_witness :
    get_config storeZero "Absent" = .error "No such config element" ∧
    get_config storeZero "Dynamic" = .ok "0" ∧
    (set_config ⟨storeZero, false⟩ "Absent" "9").store.config = storeZero.config ∧
    get_config (set_config ⟨storeZero, false⟩ "Dynamic" "-1").store "Dynamic" = .ok "-1" :=
  ⟨c6_config_amended.1 storeZero "Absent" rfl,
   by
     have := c6_config_amended.2.1 storeZero "Dynamic" ⟨"Dynamic", "0"⟩ rfl
     exact this,
   c6_config_amended.2.2.1 ⟨storeZero, false⟩ "Absent" "9" rfl,
   c6_config_amended.2.2.2 ⟨storeZero, false⟩ "Dynamic" "-1" ⟨"Dynamic", "0"⟩ rfl⟩

/-! ### Claim C5 -/

/-- C5: `tag_property`'s docstring promises that tagging with
`System.System` raises, but the guard compares the integer `object_id`
with the string `'1'`, which in Python is never equal; evaluated at a store
where `System.System` has object id 1 and the property has one untagged
data row, the call succeeds and inserts a `tag` row referencing the System
object instead of raising. -/
theorem c5_tag_property_system_not_refused :
    sysObj.object_id = 1 ∧
    storeOne.tags = [] ∧
    tag_property ⟨storeOne, false⟩ genObj "P" "System.System" =
      (⟨{ storeOne with tags := [⟨1, 1⟩] }, false⟩, Option.none) := by
  refine ⟨rfl, rfl, ?_⟩
  decide

/-! ### Claim C2 -/

/-- C2: `get_property` returns `None` exactly when zero view rows match the
(child object, property name, owner-as-parent-or-Tag) filter, a single
scalar when exactly one row matches, and an ordered list when more than one
matches, each row's value translated through the property's `input_mask`
(all matching rows carry the property's mask `pm`). -/
theorem c2_get_property_cardinality (s : Store) (obj tag_obj : ObjectRow)
    (name tag : String) (pm : Option String)
    (hd : s.hasDataTable = true)
    (ht : get_by_hierarchy s tag = some tag_obj)
    (hm : ∀ r ∈ getPropRows s obj.object_id name tag_obj.object_id, r.input_mask = pm) :
    (get_property s obj name tag = .ok .none ↔
       getPropRows s obj.object_id name tag_obj.object_id = []) ∧
    (∀ r, getPropRows s obj.object_id name tag_obj.object_id = [r] →
       get_property s obj name tag = .ok (.scalar (valmap (maskPairs pm) r.value))) ∧
    (∀ r₁ r₂ rest, getPropRows s obj.object_id name tag_obj.object_id = r₁ :: r₂ :: rest →
       get_property s obj name tag =
         .ok (.list ((r₁ :: r₂ :: rest).map (fun r => valmap (maskPairs pm) r.value)))) := by
  have hget : get_property s obj name tag =
      (let rows := getPropRows s obj.object_id name tag_obj.object_id
       let valdict := headValdict rows
       let mapped := rows.map (fun r => valmap valdict r.value)
       match mapped with
       | [] => .ok .none
       | [v] => .ok (.scalar v)
       | vs => .ok (.list vs)) := by
    unfold get_property
    rw [hd, ht]
    rfl
  refine ⟨?_, ?_, ?_⟩
  · rw [hget]
    cases hrows : getPropRows s obj.object_id name tag_obj.object_id with
    | nil => simp
    | cons r t =>
        cases t with
        | nil => simp
        | cons r₂ u => simp
  · intro r hrows
    rw [hget]
    simp only [hrows]
    have := hm r (by rw [hrows]; simp)
    simp [headValdict, maskPairs, this]
  · intro r₁ r₂ rest hrows
    rw [hget]
    simp only [hrows]
    have h1 := hm r₁ (by rw [hrows]; simp)
    simp [headValdict, maskPairs, h1]

theorem c2_get_property_cardinality_witness :
    (get_property storeZero genObj "P" "System.System" = .ok .none ↔
        getPropRows storeZero genObj.object_id "P" sysObj.object_id = []) ∧
    get_property storeOne genObj "P" "System.System" = .ok (.scalar "5") ∧
    get_property storeTwo genObj "P" "System.System" = .ok (.list ["5", "6"]) := by
  refine ⟨(c2_get_property_cardinality storeZero genObj sysObj "P" "System.System"
      Option.none rfl rfl (by decide)).1, ?_, ?_⟩
  · have h := (c2_get_property_cardinality storeOne genObj sysObj "P" "System.System"
      Option.none rfl rfl (by decide)).2.1
      ⟨1, 1, "5", "P", Option.none, 2, 1, Option.none, Option.none, Option.none⟩ (by decide)
    exact h
  · have h := (c2_get_property_cardinality storeTwo genObj sysObj "P" "System.System"
      Option.none rfl rfl (by decide)).2.2
      ⟨1, 1, "5", "P", Option.none, 2, 1, Option.none, Option.none, Option.none⟩
      ⟨2, 2, "6", "P", Option.none, 2, 1, Option.none, Option.none, some 2⟩ [] (by decide)
    exact h

/-! ### The native branch of `set_property` -/

/-- Under the resolution hypotheses, `set_property` with the default
`data_tag` reaches the native branch and dispatches on the number of
existing data rows. -/
theorem set_property_native_eq (s : Store) (b : Bool) (obj : ObjectRow) (name tag : String)
    (value : PyVal) (tag_obj : ObjectRow) (tagCls : String) (prop : PropertyRow)
    (member : MembershipRow)
    (ht : get_by_hierarchy s tag = some tag_obj)
    (hc : classNameOf s tag_obj.class_id = some tagCls)
    (hp : lookupValidProp s obj.class_id tagCls name = some prop)
    (hmem : s.memberships.find? (fun m =>
      m.child_object_id == obj.object_id &&
        m.parent_object_id == tag_obj.object_id) = some member) :
    set_property ⟨s, b⟩ obj name value tag Option.none =
      (match nativeDataIds s member prop with
       | [] => setPropNativeZero ⟨s, b⟩ prop member value
       | [d0] => setPropNativeOne ⟨s, b⟩ prop d0 value
       | ids => setPropNativeMany ⟨s, b⟩ prop ids value) := by
  unfold set_property
  show (match get_by_hierarchy s tag with
    | Option.none => _
    | some tag_obj => _) = _
  rw [ht]
  show (match classNameOf s tag_obj.class_id with
    | Option.none => _
    | some tagCls => _) = _
  rw [hc]
  simp only [validPropsFor_isEmpty_false hp, Bool.false_eq_true, if_false]
  unfold setPropNative
  show (match lookupValidProp s obj.class_id tagCls name with
    | Option.none => _
    | some prop => _) = _
  rw [hp]
  show (match s.memberships.find? (fun m =>
      m.child_object_id == obj.object_id && m.parent_object_id == tag_obj.object_id) with
    | Option.none => _
    | some member => _) = _
  rw [hmem]

/-- When the property has no (truthy) mask, the multi-row overwrite loop
applies each value to its data id in order, committing after each write. -/
theorem overwriteLoop_noMask (prop : PropertyRow)
    (h : truthyMask prop.input_mask = Option.none) :
    ∀ (pairs : List (String × Nat)) (db : DB),
      overwriteLoop prop pairs db =
        (⟨applyValueUpdates pairs db.store, if pairs.isEmpty then db.dirty else false⟩,
         Option.none) := by
  intro pairs
  induction pairs with
  | nil => intro db; simp [overwriteLoop, applyValueUpdates]
  | cons p rest ih =>
      intro db
      obtain ⟨v, did⟩ := p
      simp only [overwriteLoop, get_mask_value, h, ih, commit, execS, applyValueUpdates,
        List.foldl_cons, List.isEmpty_cons]
      cases rest <;> simp [applyValueUpdates]

/-! ### Claim C4 -/

/-- C4: in the native case of `set_property`, with exactly one existing data
row a list value is rejected with no data row modified; with more than one
existing row, a scalar and a length-mismatched list are rejected with no
modification, and a matching-length list overwrites the rows element-wise
along the band-ordered data-id list `nativeDataIds` (committing each
write). -/
theorem c4_native_arity (s : Store) (b : Bool) (obj tag_obj : ObjectRow)
    (name tag tagCls : String) (prop : PropertyRow) (member : MembershipRow)
    (ht : get_by_hierarchy s tag = some tag_obj)
    (hc : classNameOf s tag_obj.class_id = some tagCls)
    (hp : lookupValidProp s obj.class_id tagCls name = some prop)
    (hmem : s.memberships.find? (fun m =>
      m.child_object_id == obj.object_id &&
        m.parent_object_id == tag_obj.object_id) = some member) :
    (∀ d0 vs, nativeDataIds s member prop = [d0] →
       set_property ⟨s, b⟩ obj name (.list vs) tag Option.none =
         (⟨s, b⟩, some "Attempting to set list for a single data property.")) ∧
    (∀ ids v, nativeDataIds s member prop = ids → 2 ≤ ids.length →
       set_property ⟨s, b⟩ obj name (.str v) tag Option.none =
         (⟨s, b⟩, some "Attempting to set a single value for a list data property.")) ∧
    (∀ ids vs, nativeDataIds s member prop = ids → 2 ≤ ids.length →
       vs.length ≠ ids.length →
       set_property ⟨s, b⟩ obj name (.list vs) tag Option.none =
         (⟨s, b⟩, some "Length of values passed in does not match set data list")) ∧
    (∀ ids vs, nativeDataIds s member prop = ids → 2 ≤ ids.length →
       vs.length = ids.length → truthyMask prop.input_mask = Option.none →
       set_property ⟨s, b⟩ obj name (.list vs) tag Option.none =
         (⟨applyValueUpdates (vs.zip ids) s, false⟩, Option.none)) := by
  refine ⟨?_, ?_, ?_, ?_⟩
  · intro d0 vs hids
    rw [set_property_native_eq s b obj name tag (.list vs) tag_obj tagCls prop member
      ht hc hp hmem, hids]
    rfl
  · intro ids v hids hlen
    rw [set_property_native_eq s b obj name tag (.str v) tag_obj tagCls prop member
      ht hc hp hmem, hids]
    match ids, hlen with
    | i₁ :: i₂ :: rest, _ => rfl
  · intro ids vs hids hlen hne
    rw [set_property_native_eq s b obj name tag (.list vs) tag_obj tagCls prop member
      ht hc hp hmem, hids]
    match ids, hlen, hne with
    | i₁ :: i₂ :: rest, _, hne =>
        have hb : (vs.length != (i₁ :: i₂ :: rest).length) = true := by
          simp only [bne_iff_ne, ne_eq]
          exact hne
        simp [setPropNativeMany, hb]
        intro h
        exact absurd h (by simpa using hne)
  · intro ids vs hids hlen heq hmask
    rw [set_property_native_eq s b obj name tag (.list vs) tag_obj tagCls prop member
      ht hc hp hmem, hids]
    match ids, hlen, heq with
    | i₁ :: i₂ :: rest, _, heq =>
        have hbne : (vs.length != (i₁ :: i₂ :: rest).length) = false := by
          simp [bne, heq]
        have hz : (vs.zip (i₁ :: i₂ :: rest)).isEmpty = false := by
          cases vs with
          | nil => simp at heq
          | cons v t => rfl
        simp only [setPropNativeMany, hbne, Bool.false_eq_true, if_false,
          overwriteLoop_noMask prop hmask, hz]

theorem c4_native_arity_witness :
    set_property ⟨storeOne, false⟩ genObj "P" (.list ["8", "9"]) "System.System"
        Option.none =
      (⟨storeOne, false⟩, some "Attempting to set list for a single data property.") ∧
    set_property ⟨storeTwo, false⟩ genObj "P" (.str "8") "System.System" Option.none =
      (⟨storeTwo, false⟩, some "Attempting to set a single value for a list data property.") ∧
    set_property ⟨storeTwo, false⟩ genObj "P" (.list ["8"]) "System.System" Option.none =
      (⟨storeTwo, false⟩, some "Length of values passed in does not match set data list") ∧
    set_property ⟨storeTwo, false⟩ genObj "P" (.list ["8", "9"]) "System.System"
        Option.none =
      (⟨applyValueUpdates (["8", "9"].zip [1, 2]) storeTwo, false⟩, Option.none) := by
  have h1 := c4_native_arity storeOne false genObj sysObj "P" "System.System" "System"
    propP memb1 (by decide) (by decide) (by decide) (by decide)
  have h2 := c4_native_arity storeTwo false genObj sysObj "P" "System.System" "System"
    propP memb1 (by decide) (by decide) (by decide) (by decide)
  exact ⟨h1.1 1 ["8", "9"] (by decide),
         h2.2.1 [1, 2] "8" (by decide) (by decide),
         h2.2.2.1 [1, 2] ["8"] (by decide) (by decide) (by decide),
         h2.2.2.2 [1, 2] ["8", "9"] (by decide) (by decide) (by decide) (by decide)⟩

/-! ### The view after an in-place value update -/

theorem dataViewRows_data_id {s : Store} {d : DataRow} {r : PropViewRow}
    (h : r ∈ dataViewRows s d) : r.data_id = d.data_id := by
  unfold dataViewRows at h
  cases h1 : s.properties.find? (fun p => p.property_id == d.property_id) with
  | none => rw [h1] at h; simp at h
  | some p =>
      cases h2 : s.memberships.find? (fun m => m.membership_id == d.membership_id) with
      | none => rw [h1, h2] at h; simp at h
      | some mm =>
          rw [h1, h2] at h
          rcases mem_of_mem_listJoinMap h with ⟨t, _, ht⟩
          rcases mem_of_mem_listJoinMap ht with ⟨tx, _, htx⟩
          rcases List.mem_map.mp htx with ⟨bd, _, hb⟩
          rw [← hb]

/-- `UPDATE data SET value=? WHERE data_id=?` rewrites the view pointwise:
every view row of the updated data id gets the new value, everything else
is unchanged. -/
theorem property_view_updateDataValue (s : Store) (did : Nat) (v : String) :
    property_view (updateDataValue did v s) =
      (property_view s).map (fun r =>
        if r.data_id == did then { r with value := v } else r) := by
  show listJoinMap (dataViewRows (updateDataValue did v s))
      (s.data.map (fun d => if d.data_id == did then { d with value := v } else d)) = _
  rw [listJoinMap_map]
  unfold property_view
  rw [map_listJoinMap]
  apply listJoinMap_congr
  intro d _
  by_cases hdid : (d.data_id == did) = true
  · rw [if_pos hdid]
    show dataViewRows s { d with value := v } =
      (dataViewRows s d).map (fun r => if r.data_id == did then { r with value := v } else r)
    unfold dataViewRows
    cases h1 : s.properties.find? (fun p => p.property_id == d.property_id) with
    | none => simp only [h1, List.map_nil]
    | some p =>
        cases h2 : s.memberships.find? (fun m => m.membership_id == d.membership_id) with
        | none => simp only [h1, h2, List.map_nil]
        | some mm =>
            simp only [h1, h2, map_listJoinMap, List.map_map]
            apply listJoinMap_congr
            intro t _
            apply listJoinMap_congr
            intro tx _
            apply List.map_congr_left
            intro bb _
            simp [Function.comp, hdid]
  · rw [if_neg (by simp [hdid] : ¬ ((d.data_id == did) = true))]
    show dataViewRows s d =
      (dataViewRows s d).map (fun r => if r.data_id == did then { r with value := v } else r)
    symm
    have hcong : ∀ r ∈ dataViewRows s d,
        (fun r => if r.data_id == did then { r with value := v } else r) r = id r := by
      intro r hr
      have hrd := dataViewRows_data_id hr
      simp [hrd, hdid]
    rw [List.map_congr_left hcong, List.map_id]

theorem getMatch_value_invariant (objId : Nat) (name : String) (tagId did : Nat)
    (v : String) (r : PropViewRow) :
    getMatch objId name tagId (if r.data_id == did then { r with value := v } else r) =
      getMatch objId name tagId r := by
  by_cases h : (r.data_id == did) = true <;> simp [getMatch, h]

theorem bandLt_value_invariant (did : Nat) (v : String) (r : PropViewRow) :
    (if r.data_id == did then { r with value := v } else r).band_id = r.band_id := by
  by_cases h : (r.data_id == did) = true <;> simp [h]

theorem getPropRows_updateDataValue (s : Store) (objId : Nat) (name : String)
    (tagId did : Nat) (v : String) :
    getPropRows (updateDataValue did v s) objId name tagId =
      (getPropRows s objId name tagId).map (fun r =>
        if r.data_id == did then { r with value := v } else r) := by
  unfold getPropRows
  rw [property_view_updateDataValue]
  have hfilter : ((property_view s).map (fun r =>
      if r.data_id == did then { r with value := v } else r)).filter
        (getMatch objId name tagId) =
      ((property_view s).filter (getMatch objId name tagId)).map (fun r =>
        if r.data_id == did then { r with value := v } else r) := by
    rw [List.filter_map]
    congr 1
    apply List.filter_congr
    intro r _
    exact getMatch_value_invariant objId name tagId did v r
  rw [hfilter]
  show (if s.has_data_uid then _ else _) = _
  cases hu : s.has_data_uid with
  | false => simp
  | true =>
      simp only [if_true]
      rw [sortBy_map]
      have hlt : (fun (x y : PropViewRow) => bandLt
          (if x.data_id == did then { x with value := v } else x).band_id
          (if y.data_id == did then { y with value := v } else y).band_id)
          = (fun (a b : PropViewRow) => bandLt a.band_id b.band_id) := by
        funext a b
        rw [bandLt_value_invariant, bandLt_value_invariant]
      rw [hlt]

/-! ### Claim C3 -/

/-- C3: for a property whose `input_mask` pairs raw codes with display
values, `set_property` given a display value stores the raw code the mask
pairs with it (shown on the native single-row path: the stored value is the
mask's left token, quotes and all); `get_property` afterwards translates
the stored code back and returns the display value; and `set_property`
given a value that appears in no mask pair raises a validation error with
the store unchanged. -/
theorem c3_mask_roundtrip (s : Store) (b : Bool) (obj tag_obj : ObjectRow)
    (name tag tagCls : String) (prop : PropertyRow) (member : MembershipRow)
    (m dval rcode : String) (d0 : Nat)
    (ht : get_by_hierarchy s tag = some tag_obj)
    (hc : classNameOf s tag_obj.class_id = some tagCls)
    (hp : lookupValidProp s obj.class_id tagCls name = some prop)
    (hmem : s.memberships.find? (fun mr =>
      mr.child_object_id == obj.object_id &&
        mr.parent_object_id == tag_obj.object_id) = some member)
    (hmask : prop.input_mask = some m) (hm0 : (m == "") = false)
    (hone : nativeDataIds s member prop = [d0])
    (hfind : (parseMaskPairs (pySplit ';' m)).find? (fun p => p.2 == dval) =
      some (rcode, dval)) :
    (set_property ⟨s, b⟩ obj name (.str dval) tag Option.none =
       (⟨updateDataValue d0 rcode s, false⟩, Option.none)) ∧
    (s.hasDataTable = true →
     ∀ r0, getPropRows s obj.object_id name tag_obj.object_id = [r0] →
     r0.data_id = d0 → r0.input_mask = some m →
     maskLookup (parseMaskPairs (pySplit ';' m)) rcode = some dval →
     get_property (updateDataValue d0 rcode s) obj name tag = .ok (.scalar dval)) ∧
    (∀ bad, (parseMaskPairs (pySplit ';' m)).find? (fun p => p.2 == bad) = Option.none →
       set_property ⟨s, b⟩ obj name (.str bad) tag Option.none =
         (⟨s, b⟩, some "Value not in property input_mask")) := by
  have htm : truthyMask prop.input_mask = some m := by
    rw [hmask]
    unfold truthyMask
    simp [hm0]
  have hmv : get_mask_value dval prop.input_mask = .ok rcode := by
    unfold get_mask_value
    rw [htm]
    show (match (parseMaskPairs (pySplit ';' m)).find? (fun p => p.2 == dval) with
      | some p => Except.ok p.1
      | Option.none => Except.error "Value not in property input_mask") = Except.ok rcode
    rw [hfind]
  refine ⟨?_, ?_, ?_⟩
  · rw [set_property_native_eq s b obj name tag (.str dval) tag_obj tagCls prop member
      ht hc hp hmem, hone]
    show (match get_mask_value dval prop.input_mask with
      | Except.error e => ((⟨s, b⟩ : DB), some e)
      | Except.ok mv => (commit (execS (updateDataValue d0 mv) ⟨s, b⟩), Option.none)) = _
    rw [hmv]
    rfl
  · intro hdt r0 hrows hr0 hr0m hback
    have htm2 : truthyMask ({ r0 with value := rcode } : PropViewRow).input_mask
        = some m := by
      rw [show ({ r0 with value := rcode } : PropViewRow).input_mask = some m from hr0m]
      unfold truthyMask
      simp [hm0]
    have hvd : headValdict [{ r0 with value := rcode }] =
        parseMaskPairs (pySplit ';' m) := by
      show (match truthyMask ({ r0 with value := rcode } : PropViewRow).input_mask with
        | Option.none => ([] : List (String × String))
        | some mm => parseMaskPairs (pySplit ';' mm)) = _
      rw [htm2]
    have hvm : valmap (headValdict [{ r0 with value := rcode }]) rcode = dval := by
      rw [hvd]
      unfold valmap
      rw [hback]
    have hsub : (if r0.data_id == d0 then { r0 with value := rcode } else r0)
        = { r0 with value := rcode } := by
      rw [hr0]
      simp
    unfold get_property
    rw [show (updateDataValue d0 rcode s).hasDataTable = true from hdt]
    rw [show get_by_hierarchy (updateDataValue d0 rcode s) tag = some tag_obj from ht]
    simp only [Bool.not_true, Bool.false_eq_true, if_false,
      getPropRows_updateDataValue, hrows, List.map_cons, List.map_nil, hsub, hvm]
  · intro bad hbad
    have hbadv : get_mask_value bad prop.input_mask =
        .error "Value not in property input_mask" := by
      unfold get_mask_value
      rw [htm]
      show (match (parseMaskPairs (pySplit ';' m)).find? (fun p => p.2 == bad) with
        | some p => Except.ok p.1
        | Option.none => Except.error "Value not in property input_mask") = _
      rw [hbad]
    rw [set_property_native_eq s b obj name tag (.str bad) tag_obj tagCls prop member
      ht hc hp hmem, hone]
    show (match get_mask_value bad prop.input_mask with
      | Except.error e => ((⟨s, b⟩ : DB), some e)
      | Except.ok mv => (commit (execS (updateDataValue d0 mv) ⟨s, b⟩), Option.none)) = _
    rw [hbadv]

theorem c3_mask_roundtrip_witness :
    set_property ⟨storeMask, false⟩ genObj "M" (.str "On") "System.System" Option.none =
      (⟨updateDataValue 1 "\"1\"" storeMask, false⟩, Option.none) ∧
    get_property (updateDataValue 1 "\"1\"" storeMask) genObj "M" "System.System" =
      .ok (.scalar "On") ∧
    set_property ⟨storeMask, false⟩ genObj "M" (.str "Blue") "System.System" Option.none =
      (⟨storeMask, false⟩, some "Value not in property input_mask") := by
  have h := c3_mask_roundtrip storeMask false genObj sysObj "M" "System.System" "System"
    propM memb1 onOffMask "On" "\"1\"" 1 (by decide) (by decide) (by decide) (by decide)
    rfl (by decide) (by decide) (by decide)
  exact ⟨h.1,
    h.2.1 rfl ⟨1, 1, "\"0\"", "M", some onOffMask, 2, 1, Option.none, Option.none,
      Option.none⟩ (by decide) rfl rfl (by decide),
    h.2.2 "Blue" (by decide)⟩

/-! ### Claim C9 -/

theorem insertNativeRows_dirty_mono (memId propId : Nat) :
    ∀ (lastId lastUid band : Nat) (vals : List String) (db : DB), db.dirty = true →
      (insertNativeRows memId propId lastId lastUid band vals db).dirty = true := by
  intro lastId lastUid band vals
  induction vals generalizing lastId lastUid band with
  | nil => intro db h; simpa [insertNativeRows] using h
  | cons v rest ih =>
      intro db _
      simp only [insertNativeRows]
      apply ih
      by_cases hb : band + 1 > 1 <;> simp [hb, execS]

theorem insertNativeRows_dirty (memId propId lastId lastUid band : Nat)
    (v : String) (rest : List String) (db : DB) :
    (insertNativeRows memId propId lastId lastUid band (v :: rest) db).dirty = true := by
  simp only [insertNativeRows]
  apply insertNativeRows_dirty_mono
  by_cases hb : band + 1 > 1 <;> simp [hb, execS]

/-- C9 counterexample at a concrete store: `untag_property` deletes its tag
row and returns normally with the write transaction still open (`dirty`),
so the claim that every public property mutation commits before returning
is false. -/
theorem c9_untag_property_uncommitted :
    untag_property ⟨storeTagged, false⟩ genObj "P" "Scenario.Scen1" =
      (⟨{ storeTagged with tags := [] }, true⟩, Option.none) := by
  decide

/-- C9 amended: `delete_property` and `tag_property` commit before
returning; `set_property` commits on its native single-row and multi-row
paths and on both tag-override paths; but `untag_property` performs its
deletions without ever committing, and the native zero-existing-rows
insertion path of `set_property` (`setPropNativeZero`) likewise returns
with its inserts uncommitted. -/
theorem c9_commit_discipline :
    (∀ (db : DB) (obj : ObjectRow) (name tag : String) (tag_obj : ObjectRow),
      get_by_hierarchy db.store tag = some tag_obj →
      (delete_property db obj name tag).1.dirty = false ∧
        (delete_property db obj name tag).2 = Option.none) ∧
    (∀ (db : DB) (obj : ObjectRow) (name tag : String) (tag_obj : ObjectRow),
      get_by_hierarchy db.store tag = some tag_obj →
      (tag_property db obj name tag).1.dirty = false ∧
        (tag_property db obj name tag).2 = Option.none) ∧
    (∀ (db : DB) (obj : ObjectRow) (name tag : String) (tag_obj : ObjectRow),
      get_by_hierarchy db.store tag = some tag_obj → tag_obj.object_id ≠ 1 →
      ((property_view db.store).filter (fun r =>
        r.child_object_id == obj.object_id && r.name == name &&
          r.tag_object_id == some tag_obj.object_id)).map (fun r => r.data_id) ≠ [] →
      (untag_property db obj name tag).1.dirty = true ∧
        (untag_property db obj name tag).2 = Option.none) ∧
    (∀ (db : DB) (prop : PropertyRow) (member : MembershipRow) (value : PyVal)
       (mv : String) (mrest : List String),
      db.store.data.isEmpty = false →
      mapMaskValues prop.input_mask (toListVal value) = .ok (mv :: mrest) →
      (setPropNativeZero db prop member value).1.dirty = true ∧
        (setPropNativeZero db prop member value).2 = Option.none) ∧
    (∀ (db : DB) (prop : PropertyRow) (d0 : Nat) (v mv : String),
      get_mask_value v prop.input_mask = .ok mv →
      (setPropNativeOne db prop d0 (.str v)).1.dirty = false ∧
        (setPropNativeOne db prop d0 (.str v)).2 = Option.none) ∧
    (∀ (db : DB) (prop : PropertyRow) (ids : List Nat) (vs : List String),
      truthyMask prop.input_mask = Option.none → vs.length = ids.length → ids ≠ [] →
      (setPropNativeMany db prop ids (.list vs)).1.dirty = false ∧
        (setPropNativeMany db prop ids (.list vs)).2 = Option.none) ∧
    (∀ (db : DB) (obj : ObjectRow) (name v : String) (tag_obj : ObjectRow)
       (data_tag : Option String) (ptag : TagRow) (pprop : PropertyRow) (mv : String),
      taggedSearch db.store obj name
        (db.store.tags.filter (fun t => t.object_id == tag_obj.object_id)) =
          .ok (some (ptag, pprop)) →
      get_mask_value v pprop.input_mask = .ok mv →
      (setPropTagged db obj name (.str v) tag_obj data_tag).1.dirty = false ∧
        (setPropTagged db obj name (.str v) tag_obj data_tag).2 = Option.none) ∧
    (∀ (db : DB) (obj : ObjectRow) (name : String) (value : PyVal)
       (tag_obj sys_obj : ObjectRow) (prop : PropertyRow) (member : MembershipRow)
       (mvs : List String),
      lookupValidProp db.store obj.class_id "System" name = some prop →
      db.store.data.isEmpty = false →
      get_by_hierarchy db.store "System.System" = some sys_obj →
      db.store.memberships.find? (fun mr => mr.child_object_id == obj.object_id &&
        mr.parent_object_id == sys_obj.object_id) = some member →
      mapMaskValues prop.input_mask (toListVal value) = .ok mvs →
      (setPropTaggedNew db obj name value tag_obj Option.none).1.dirty = false ∧
        (setPropTaggedNew db obj name value tag_obj Option.none).2 = Option.none) := by
  refine ⟨?_, ?_, ?_, ?_, ?_, ?_, ?_, ?_⟩
  · intro db obj name tag tag_obj ht
    unfold delete_property
    rw [ht]
    exact ⟨rfl, rfl⟩
  · intro db obj name tag tag_obj ht
    unfold tag_property
    rw [ht]
    exact ⟨rfl, rfl⟩
  · intro db obj name tag tag_obj ht hne hids
    have hguard : (tag_obj.object_id == 1) = false := by simp [hne]
    have hempty : (((property_view db.store).filter (fun r =>
        r.child_object_id == obj.object_id && r.name == name &&
          r.tag_object_id == some tag_obj.object_id)).map (fun r => r.data_id)).isEmpty
        = false := by
      cases hc : ((property_view db.store).filter (fun r =>
        r.child_object_id == obj.object_id && r.name == name &&
          r.tag_object_id == some tag_obj.object_id)).map (fun r => r.data_id) with
      | nil => exact absurd hc hids
      | cons a t => rfl
    unfold untag_property
    rw [ht]
    simp only [hguard, Bool.false_eq_true, if_false, hempty, execS]
    constructor <;> trivial
  · intro db prop member value mv mrest hne hmv
    unfold setPropNativeZero
    simp only [hne, Bool.false_eq_true, if_false, hmv]
    refine ⟨insertNativeRows_dirty _ _ _ _ _ _ _ _, ?_⟩
    trivial
  · intro db prop d0 v mv hmv
    simp only [setPropNativeOne, hmv]
    constructor <;> trivial
  · intro db prop ids vs hmask hlen hne
    unfold setPropNativeMany
    have hbne : (vs.length != ids.length) = false := by simp [bne, hlen]
    have hz : (vs.zip ids).isEmpty = false := by
      cases ids with
      | nil => exact absurd rfl hne
      | cons i t =>
          cases vs with
          | nil => simp at hlen
          | cons v u => rfl
    simp only [hbne, Bool.false_eq_true, if_false, overwriteLoop_noMask prop hmask, hz]
    constructor <;> trivial
  · intro db obj name v tag_obj data_tag ptag pprop mv hsearch hmv
    simp only [setPropTagged, hsearch, hmv]
    constructor <;> trivial
  · intro db obj name value tag_obj sys_obj prop member mvs hp hne hsys hmem hmv
    simp only [setPropTaggedNew, hp, hne, Bool.false_eq_true, if_false, hsys, hmem, hmv,
      resolveDataTag]
    constructor <;> trivial

theorem c9_commit_discipline_witness :
    (delete_property ⟨storeOne, false⟩ genObj "P" "System.System").1.dirty = false ∧
    (tag_property ⟨storeOne, false⟩ genObj "P" "System.System").1.dirty = false ∧
    (untag_property ⟨storeTagged, false⟩ genObj "P" "Scenario.Scen1").1.dirty = true ∧
    (setPropNativeZero ⟨storeZero, false⟩ propP memb1
      (.list ["10", "20", "30"])).1.dirty = true ∧
    (setPropNativeOne ⟨storeOne, false⟩ propP 1 (.str "9")).1.dirty = false ∧
    (setPropNativeMany ⟨storeTwo, false⟩ propP [1, 2]
      (.list ["8", "9"])).1.dirty = false ∧
    (setPropTagged ⟨storeTagged, false⟩ genObj "P" (.str "7") scenObj
      Option.none).1.dirty = false ∧
    (setPropTaggedNew ⟨storeOne, false⟩ genObj "P" (.str "7") scenObj
      Option.none).1.dirty = false :=
  ⟨(c9_commit_discipline.1 ⟨storeOne, false⟩ genObj "P" "System.System" sysObj
      (by decide)).1,
   (c9_commit_discipline.2.1 ⟨storeOne, false⟩ genObj "P" "System.System" sysObj
      (by decide)).1,
   (c9_commit_discipline.2.2.1 ⟨storeTagged, false⟩ genObj "P" "Scenario.Scen1" scenObj
      (by decide) (by decide) (by decide)).1,
   (c9_commit_discipline.2.2.2.1 ⟨storeZero, false⟩ propP memb1 (.list ["10", "20", "30"])
      "10" ["20", "30"] (by decide) rfl).1,
   (c9_commit_discipline.2.2.2.2.1 ⟨storeOne, false⟩ propP 1 "9" "9" rfl).1,
   (c9_commit_discipline.2.2.2.2.2.1 ⟨storeTwo, false⟩ propP [1, 2] ["8", "9"]
      rfl rfl (by decide)).1,
   (c9_commit_discipline.2.2.2.2.2.2.1 ⟨storeTagged, false⟩ genObj "P" "7" scenObj
      Option.none ⟨1, 3⟩ propP "7" rfl rfl).1,
   (c9_commit_discipline.2.2.2.2.2.2.2 ⟨storeOne, false⟩ genObj "P" (.str "7") scenObj
      sysObj propP memb1 ["7"] (by decide) (by decide) (by decide) (by decide)
      rfl).1⟩

/-! ### Claim C7 -/

theorem ne_append_todelete (s : String) : s ≠ s ++ "_todelete" := by
  intro h
  have hlen := congrArg String.length h
  rw [String.length_append] at hlen
  have h9 : "_todelete".length = 9 := by decide
  rw [h9] at hlen
  omega

theorem find?_filter_of_imp {α : Type} (p q : α → Bool) (l : List α)
    (h : ∀ a, p a = true → q a = true) : (l.filter q).find? p = l.find? p := by
  induction l with
  | nil => rfl
  | cons a t ih =>
      by_cases hq : q a = true
      · by_cases hp : p a = true <;>
          simp [List.filter_cons, hq, List.find?_cons, hp, ih]
      · have hp : p a = false := by
          cases hpa : p a
          · rfl
          · exact absurd (h a hpa) hq
        simp [List.filter_cons, hq, List.find?_cons, hp, ih]

theorem find?_append_none {α : Type} (p : α → Bool) {l₁ : List α} (l₂ : List α)
    (h : l₁.find? p = Option.none) : (l₁ ++ l₂).find? p = l₂.find? p := by
  induction l₁ with
  | nil => rfl
  | cons a t ih =>
      rw [List.cons_append]
      cases hpa : p a with
      | true => rw [List.find?_cons_of_pos _ hpa] at h; exact absurd h (by simp)
      | false =>
          rw [List.find?_cons_of_neg _ (by simp [hpa])] at h
          rw [List.find?_cons_of_neg _ (by simp [hpa])]
          exact ih h

theorem find?_append_first {α : Type} (p : α → Bool) {l₁ : List α} (l₂ : List α) {a : α}
    (h : l₁.find? p = some a) : (l₁ ++ l₂).find? p = some a := by
  induction l₁ with
  | nil => simp at h
  | cons b t ih =>
      rw [List.cons_append]
      cases hpb : p b with
      | true => rw [List.find?_cons_of_pos _ hpb] at h ⊢; exact h
      | false =>
          rw [List.find?_cons_of_neg _ (by simp [hpb])] at h ⊢
          exact ih h

theorem lookupTable_drop_ne (l : LDB) (x m : String) (h : m ≠ x) :
    lookupTable (dropTable l x) m = lookupTable l m := by
  unfold lookupTable dropTable
  rw [find?_filter_of_imp]
  intro a ha
  have : a.1 = m := by simpa using ha
  simp [this, h]

theorem lookupTable_drop_self (l : LDB) (x : String) :
    lookupTable (dropTable l x) x = Option.none := by
  unfold lookupTable dropTable
  rw [Option.map_eq_none']
  rw [List.find?_eq_none]
  intro e he
  have h2 := (List.mem_filter.mp he).2
  simp only [bne_iff_ne, ne_eq] at h2
  simp [h2]

theorem find?_rename_to {o n : String} :
    ∀ (L : List (String × GTable)), (∀ a ∈ L, ¬ (a.1 == n) = true) →
      ((L.map (fun t => if t.1 == o then (n, t.2) else t)).find?
          (fun t => t.1 == n)).map (fun t => t.2) =
        (L.find? (fun t => t.1 == o)).map (fun t => t.2) := by
  intro L
  induction L with
  | nil => intro _; rfl
  | cons a t ih =>
      intro hall
      have han := hall a (by simp)
      simp only [List.map_cons]
      by_cases hao : (a.1 == o) = true
      · rw [if_pos hao]
        rw [@List.find?_cons_of_pos (String × GTable) (fun t => t.1 == n) (n, a.2)
          (List.map (fun t => if t.1 == o then (n, t.2) else t) t) (by simp)]
        rw [@List.find?_cons_of_pos (String × GTable) (fun t => t.1 == o) a t hao]
        rfl
      · rw [if_neg hao]
        rw [@List.find?_cons_of_neg (String × GTable) (fun t => t.1 == n) a
          (List.map (fun t => if t.1 == o then (n, t.2) else t) t) han]
        rw [@List.find?_cons_of_neg (String × GTable) (fun t => t.1 == o) a t hao]
        exact ih (fun x hx => hall x (by simp [hx]))

theorem lookupTable_rename_to (l : LDB) (o n : String) (hn : lookupTable l n = Option.none) :
    lookupTable (renameTable l o n) n = lookupTable l o := by
  have hfn : l.tables.find? (fun t => t.1 == n) = Option.none := by
    unfold lookupTable at hn
    exact Option.map_eq_none'.mp hn
  exact find?_rename_to l.tables (List.find?_eq_none.mp hfn)

theorem lookupTable_rename_from (l : LDB) (o n : String) (hon : o ≠ n) :
    lookupTable (renameTable l o n) o = Option.none := by
  unfold lookupTable renameTable
  rw [Option.map_eq_none', List.find?_eq_none]
  intro e he
  rcases List.mem_map.mp he with ⟨a, _, rfl⟩
  by_cases hao : (a.1 == o) = true
  · intro hcontra
    rw [if_pos hao] at hcontra
    exact (Ne.symm hon) (by simpa using hcontra)
  · intro hcontra
    rw [if_neg hao] at hcontra
    exact hao hcontra

theorem find?_rename_other {o n m : String} (hmo : m ≠ o) (hmn : m ≠ n) :
    ∀ (L : List (String × GTable)),
      (L.map (fun t => if t.1 == o then (n, t.2) else t)).find? (fun t => t.1 == m) =
        L.find? (fun t => t.1 == m) := by
  intro L
  induction L with
  | nil => rfl
  | cons a t ih =>
      simp only [List.map_cons]
      by_cases hao : (a.1 == o) = true
      · have ham : ¬ (a.1 == m) = true := by
          have ha : a.1 = o := by simpa using hao
          simp [ha, Ne.symm hmo]
        have hnm : ¬ (((n, a.2) : String × GTable).1 == m) = true := by
          simp [Ne.symm hmn]
        rw [if_pos hao,
          @List.find?_cons_of_neg (String × GTable) (fun t => t.1 == m) (n, a.2)
            (List.map (fun t => if t.1 == o then (n, t.2) else t) t) hnm,
          @List.find?_cons_of_neg (String × GTable) (fun t => t.1 == m) a t ham, ih]
      · rw [if_neg hao]
        by_cases ham : (a.1 == m) = true
        · rw [@List.find?_cons_of_pos (String × GTable) (fun t => t.1 == m) a
            (List.map (fun t => if t.1 == o then (n, t.2) else t) t) ham,
            @List.find?_cons_of_pos (String × GTable) (fun t => t.1 == m) a t ham]
        · rw [@List.find?_cons_of_neg (String × GTable) (fun t => t.1 == m) a
            (List.map (fun t => if t.1 == o then (n, t.2) else t) t) ham,
            @List.find?_cons_of_neg (String × GTable) (fun t => t.1 == m) a t ham, ih]

theorem lookupTable_rename_other (l : LDB) (o n m : String) (hmo : m ≠ o) (hmn : m ≠ n) :
    lookupTable (renameTable l o n) m = lookupTable l m := by
  unfold lookupTable renameTable
  rw [find?_rename_other hmo hmn]

theorem lookupTable_create_self (l : LDB) (n : String) (cols fks : List String)
    (h : lookupTable l n = Option.none) :
    lookupTable (createTable l n cols fks) n = some ⟨cols, [], fks⟩ := by
  have hfn : l.tables.find? (fun t => t.1 == n) = Option.none := by
    unfold lookupTable at h
    exact Option.map_eq_none'.mp h
  unfold lookupTable createTable
  rw [find?_append_none _ _ hfn]
  simp [List.find?_cons]

theorem lookupTable_create_other (l : LDB) (n m : String) (cols fks : List String)
    (h : m ≠ n) : lookupTable (createTable l n cols fks) m = lookupTable l m := by
  unfold lookupTable createTable
  cases hf : l.tables.find? (fun t => t.1 == m) with
  | none =>
      rw [find?_append_none _ _ hf]
      have : ((n : String) == m) = false := by simp [Ne.symm h]
      simp [List.find?_cons, this]
  | some e => rw [find?_append_first _ _ hf]

theorem lookupTable_insertSel_dst (l : LDB) (dst src : String) (st dt : GTable)
    (hsrc : lookupTable l src = some st) (hdst : lookupTable l dst = some dt) :
    lookupTable (insertSelectAll l dst src) dst =
      some { dt with rows := dt.rows ++ st.rows } := by
  unfold insertSelectAll
  rw [hsrc]
  show ((l.tables.map (fun t => if t.1 == dst then
      (t.1, { t.2 with rows := t.2.rows ++ st.rows }) else t)).find?
      (fun t => t.1 == dst)).map (fun t => t.2) = _
  rw [find?_map_pred _ _ _ (fun a => by
    by_cases hx : (a.1 == dst) = true <;> simp [hx])]
  unfold lookupTable at hdst
  rcases Option.map_eq_some'.mp hdst with ⟨e, he, he2⟩
  rw [he]
  have he1 := List.find?_some he
  simp [he1, he2]
  rw [if_pos (show e.1 = dst from by simpa using he1)]

theorem lookupTable_insertSel_other (l : LDB) (dst src m : String) (h : m ≠ dst) :
    lookupTable (insertSelectAll l dst src) m = lookupTable l m := by
  unfold insertSelectAll
  cases hsrc : lookupTable l src with
  | none => rfl
  | some st =>
      show ((l.tables.map (fun t => if t.1 == dst then
          (t.1, { t.2 with rows := t.2.rows ++ st.rows }) else t)).find?
          (fun t => t.1 == m)).map (fun t => t.2) = lookupTable l m
      rw [find?_map_pred _ _ _ (fun a => by
        by_cases hx : (a.1 == dst) = true <;> simp [hx])]
      unfold lookupTable
      cases hf : l.tables.find? (fun t => t.1 == m) with
      | none => rfl
      | some e =>
          have he1 := List.find?_some hf
          have hne : (e.1 == dst) = false := by
            have : e.1 = m := by simpa using he1
            simp [this, h]
          simp [hne]
          rw [if_neg (show ¬ e.1 = dst from by simpa using hne)]

/-- C7: the deferred foreign-key rebuild of one table recreates it with the
same columns, exactly the original rows in the original order, and the
supplied foreign-key clauses; every other table is untouched; and the index
pass creates a lookup index for every candidate foreign-key column. -/
theorem c7_rebuild_preserves (l : LDB) (n : String) (t : GTable) (fkcols : List String)
    (forkeys : List (String × String)) (hlk : lookupTable l n = some t) :
    lookupTable (rebuildTable l n fkcols) n = some ⟨t.cols, t.rows, fkcols⟩ ∧
    (∀ m, m ≠ n → m ≠ n ++ "_todelete" →
      lookupTable (rebuildTable l n fkcols) m = lookupTable l m) ∧
    (∀ p ∈ forkeys, p ∈ (createFkIndexes (rebuildTable l n fkcols) forkeys).indexes) := by
  have htmp : n ≠ n ++ "_todelete" := ne_append_todelete n
  have h1n : lookupTable (dropTable l (n ++ "_todelete")) n = some t := by
    rw [lookupTable_drop_ne _ _ _ htmp]
    exact hlk
  have h1t : lookupTable (dropTable l (n ++ "_todelete")) (n ++ "_todelete") =
      Option.none := lookupTable_drop_self _ _
  have h2tmp : lookupTable (renameTable (dropTable l (n ++ "_todelete")) n
      (n ++ "_todelete")) (n ++ "_todelete") = some t := by
    rw [lookupTable_rename_to _ _ _ h1t]
    exact h1n
  have h2n : lookupTable (renameTable (dropTable l (n ++ "_todelete")) n
      (n ++ "_todelete")) n = Option.none := lookupTable_rename_from _ _ _ htmp
  have h3n : lookupTable (dropTable (renameTable (dropTable l (n ++ "_todelete")) n
      (n ++ "_todelete")) n) n = Option.none := lookupTable_drop_self _ _
  have h3tmp : lookupTable (dropTable (renameTable (dropTable l (n ++ "_todelete")) n
      (n ++ "_todelete")) n) (n ++ "_todelete") = some t := by
    rw [lookupTable_drop_ne _ _ _ (Ne.symm htmp)]
    exact h2tmp
  have h4n := lookupTable_create_self (dropTable (renameTable
    (dropTable l (n ++ "_todelete")) n (n ++ "_todelete")) n) n t.cols fkcols h3n
  have h4tmp : lookupTable (createTable (dropTable (renameTable
      (dropTable l (n ++ "_todelete")) n (n ++ "_todelete")) n) n t.cols fkcols)
      (n ++ "_todelete") = some t := by
    rw [lookupTable_create_other _ _ _ _ _ (Ne.symm htmp)]
    exact h3tmp
  have h5n := lookupTable_insertSel_dst _ n (n ++ "_todelete") t ⟨t.cols, [], fkcols⟩
    h4tmp h4n
  have hreb : rebuildTable l n fkcols = dropTable (insertSelectAll (createTable
      (dropTable (renameTable (dropTable l (n ++ "_todelete")) n (n ++ "_todelete")) n)
      n t.cols fkcols) n (n ++ "_todelete")) (n ++ "_todelete") := by
    simp only [rebuildTable, h2tmp]
  refine ⟨?_, ?_, ?_⟩
  · rw [hreb, lookupTable_drop_ne _ _ _ htmp, h5n]
    simp
  · intro m hmn hmtmp
    rw [hreb, lookupTable_drop_ne _ _ _ hmtmp,
      lookupTable_insertSel_other _ _ _ _ hmn,
      lookupTable_create_other _ _ _ _ _ hmn,
      lookupTable_drop_ne _ _ _ hmn,
      lookupTable_rename_other _ _ _ _ hmn hmtmp,
      lookupTable_drop_ne _ _ _ hmtmp]
  · intro p hp
    unfold createFkIndexes
    exact List.mem_append_right _ hp

theorem c7_rebuild_preserves_witness :
    lookupTable (rebuildTable ldb1 "data" ["membership_id"]) "data" =
      some ⟨["data_id", "uid", "value", "membership_id"],
        [[some "1", some "1", some "5", some "1"],
         [some "2", Option.none, some "6", some "1"]], ["membership_id"]⟩ ∧
    lookupTable (rebuildTable ldb1 "data" ["membership_id"]) "membership" =
      lookupTable ldb1 "membership" ∧
    ("data", "membership_id") ∈ (createFkIndexes (rebuildTable ldb1 "data"
      ["membership_id"]) [("data", "membership_id")]).indexes := by
  have h := c7_rebuild_preserves ldb1 "data"
    ⟨["data_id", "uid", "value", "membership_id"],
      [[some "1", some "1", some "5", some "1"],
       [some "2", Option.none, some "6", some "1"]], []⟩
    ["membership_id"] [("data", "membership_id")] (by decide)
  exact ⟨h.1, h.2.1 "membership" (by decide) (by decide),
    h.2.2 ("data", "membership_id") (by simp)⟩

/-- C8: the serializer emits all non-metadata tables in lexical table-name
order, each table's rows in stored order with field order following the
column declaration order, omitting exactly the unset (`NULL`) cells, under
the root element and namespace recorded in the metadata table: `save`
coincides with the spec-modelled `saveSpec`, and a field is emitted iff
its cell holds a value (an empty string is a value and is kept). -/
theorem c8_serializer (l : LDB) (mt : GTable) (rv nv : Option String)
    (hnd : (l.tables.map (fun t => t.1)).Nodup)
    (hmt : lookupTable l META_TABLE = some mt)
    (hr : assocLast (metaDict mt) "root_element" = some rv)
    (hn : assocLast (metaDict mt) "namespace" = some nv) :
    save l = Except.ok (saveSpec l (pyStr rv) (pyStr nv)) ∧
    (∀ (cols : List String) (r : List (Option String)) (c v : String),
      (c, v) ∈ rowFields cols r ↔
        ∃ i : Nat, cols[i]? = some c ∧ r[i]? = some (some v)) := by
  have hsm : saveMeta l = Except.ok (pyStr rv, pyStr nv) := by
    simp only [saveMeta, hmt, hr, hn]
  have hcg : ∀ t ∈ sortBy (fun a b : String × GTable => strLt a.1 b.1) l.tables,
      (if (t.1 == META_TABLE) = true then []
       else
         match lookupTable l t.1 with
         | Option.none => []
         | Option.some u => emitTable t.1 u) =
      (if (t.1 == META_TABLE) = true then ([] : List XRecord)
       else emitTable t.1 t.2) := by
    intro t ht
    have htm : t ∈ l.tables := mem_sortBy.mp ht
    have hfind := find?_eq_of_nodup_key (fun x : String × GTable => x.1) htm hnd
    have hlk : lookupTable l t.1 = some t.2 := by
      unfold lookupTable
      rw [hfind]
      rfl
    by_cases hM : (t.1 == META_TABLE) = true
    · rw [if_pos hM, if_pos hM]
    · rw [if_neg hM, if_neg hM, hlk]
  constructor
  · simp only [save, hsm]
    unfold saveSpec
    rw [sortBy_map (fun t : String × GTable => t.1) strLt l.tables,
      listJoinMap_map, listJoinMap_congr hcg,
      listJoinMap_guard (fun t : String × GTable => t.1 == META_TABLE)
        (fun t => emitTable t.1 t.2)]
    rfl
  · intro cols r c v
    unfold rowFields
    rw [List.mem_filterMap]
    constructor
    · rintro ⟨p, hp, hfp⟩
      rcases List.mem_iff_getElem?.mp hp with ⟨i, hi⟩
      rcases List.getElem?_zip_eq_some.mp hi with ⟨h1, h2⟩
      cases hp2 : p.2 with
      | none => rw [hp2] at hfp; simp at hfp
      | some w =>
          rw [hp2] at hfp
          simp at hfp
          exact ⟨i, by rw [h1, hfp.1], by rw [h2, hp2, hfp.2]⟩
    · rintro ⟨i, h1, h2⟩
      refine ⟨(c, some v), ?_, rfl⟩
      exact List.mem_iff_getElem?.mpr ⟨i, List.getElem?_zip_eq_some.mpr ⟨h1, h2⟩⟩

theorem c8_serializer_witness :
    save ldb1 = Except.ok (saveSpec ldb1 "MasterDataSet"
      "http://tempuri.org/MasterDataSet.xsd") ∧
    (("value", "5") ∈ rowFields ["data_id", "uid", "value", "membership_id"]
        [some "1", some "1", some "5", some "1"] ↔
      ∃ i : Nat, ["data_id", "uid", "value", "membership_id"][i]? = some "value" ∧
        [some "1", some "1", some "5", some "1"][i]? = some (some "5")) := by
  have h := c8_serializer ldb1
    ⟨["plexos_meta_id", "name", "value"],
      [[some "1", some "namespace", some "http://tempuri.org/MasterDataSet.xsd"],
       [some "2", some "root_element", some "MasterDataSet"]], []⟩
    (some "MasterDataSet") (some "http://tempuri.org/MasterDataSet.xsd")
    (by decide) rfl rfl rfl
  exact ⟨h.1, h.2 ["data_id", "uid", "value", "membership_id"]
    [some "1", some "1", some "5", some "1"] "value" "5"⟩

theorem filter_eq_nil_of_false {α : Type} (p : α → Bool) (l : List α)
    (h : ∀ a ∈ l, p a = false) : l.filter p = [] := by
  induction l with
  | nil => rfl
  | cons a t ih =>
      rw [List.filter_cons]
      simp only [h a (by simp), Bool.false_eq_true, if_false]
      exact ih (fun x hx => h x (by simp [hx]))

theorem insertNativeRows_three (memId propId M U : Nat) (v1 v2 v3 : String) (db : DB) :
    insertNativeRows memId propId M U 0 [v1, v2, v3] db =
      ⟨{ db.store with
          data := db.store.data ++
            [⟨M + 1, U + 1, memId, v1, propId⟩,
             ⟨M + 2, U + 2, memId, v2, propId⟩,
             ⟨M + 3, U + 3, memId, v3, propId⟩],
          bands := db.store.bands ++ [⟨M + 2, 2⟩, ⟨M + 3, 3⟩] }, true⟩ := by
  have c1 : ¬ (0 + 1 > 1) := by decide
  have c2 : 1 + 1 > 1 := by decide
  have c3 : 2 + 1 > 1 := by decide
  have e2 : M + 1 + 1 = M + 2 := rfl
  have e3 : M + 2 + 1 = M + 3 := rfl
  have f2 : U + 1 + 1 = U + 2 := rfl
  have f3 : U + 2 + 1 = U + 3 := rfl
  simp [insertNativeRows, execS, c1, c2, c3, e2, e3, f2, f3]

theorem dataViewRows_ext {s s' : Store} (d : DataRow)
    (hpr : propsNMEq s'.properties s.properties)
    (hmem : s'.memberships = s.memberships)
    (htag : tagOpts s' d.data_id = tagOpts s d.data_id)
    (htext : textOpts s' d.data_id = textOpts s d.data_id)
    (hband : bandOpts s' d.data_id = bandOpts s d.data_id) :
    dataViewRows s' d = dataViewRows s d := by
  unfold dataViewRows
  rw [hmem, htag, htext, hband]
  have hk := hpr d.property_id
  cases hfs : s.properties.find? (fun p => p.property_id == d.property_id) with
  | none =>
      rw [hfs] at hk
      have hz : s'.properties.find? (fun p => p.property_id == d.property_id) =
          Option.none := Option.map_eq_none'.mp hk
      rw [hz]
  | some p =>
      rw [hfs] at hk
      rcases Option.map_eq_some'.mp hk with ⟨q, hq, hqe⟩
      rw [hq]
      have hn : q.name = p.name := congrArg Prod.fst hqe
      have hm2 : q.input_mask = p.input_mask := congrArg Prod.snd hqe
      cases s.memberships.find? (fun m => m.membership_id == d.membership_id) with
      | none => rfl
      | some mm =>
          show listJoinMap (fun t =>
              listJoinMap (fun tx =>
                (bandOpts s d.data_id).map (fun b =>
                  ({ data_id := d.data_id
                     uid := d.uid
                     value := d.value
                     name := q.name
                     input_mask := q.input_mask
                     child_object_id := mm.child_object_id
                     parent_object_id := mm.parent_object_id
                     tag_object_id := t
                     text_value := tx
                     band_id := b } : PropViewRow)))
                (textOpts s d.data_id))
              (tagOpts s d.data_id) = _
          rw [hn, hm2]

theorem dataViewRows_fresh (s' : Store) (d : DataRow) (q : PropertyRow)
    (mm : MembershipRow) (obs : List (Option Nat))
    (hq : s'.properties.find? (fun p => p.property_id == d.property_id) = some q)
    (hm : s'.memberships.find? (fun m => m.membership_id == d.membership_id) = some mm)
    (htag : s'.tags.filter (fun t => t.data_id == d.data_id) = [])
    (htext : s'.texts.filter (fun t => t.data_id == d.data_id) = [])
    (hband : bandOpts s' d.data_id = obs) :
    dataViewRows s' d = obs.map (fun b =>
      { data_id := d.data_id
        uid := d.uid
        value := d.value
        name := q.name
        input_mask := q.input_mask
        child_object_id := mm.child_object_id
        parent_object_id := mm.parent_object_id
        tag_object_id := Option.none
        text_value := Option.none
        band_id := b }) := by
  unfold dataViewRows
  rw [hq, hm]
  have htag2 : tagOpts s' d.data_id = [Option.none] := by
    unfold tagOpts
    rw [htag]
  have htext2 : textOpts s' d.data_id = [Option.none] := by
    unfold textOpts
    rw [htext]
  show listJoinMap (fun t =>
      listJoinMap (fun tx =>
        (bandOpts s' d.data_id).map (fun b =>
          ({ data_id := d.data_id
             uid := d.uid
             value := d.value
             name := q.name
             input_mask := q.input_mask
             child_object_id := mm.child_object_id
             parent_object_id := mm.parent_object_id
             tag_object_id := t
             text_value := tx
             band_id := b } : PropViewRow)))
        (textOpts s' d.data_id))
      (tagOpts s' d.data_id) = _
  rw [htag2, htext2, hband]
  simp [listJoinMap]

theorem c1_get_after (s S : Store) (obj tag_obj : ObjectRow) (member : MembershipRow)
    (prop : PropertyRow) (name tag : String)
    (hwf : WF s)
    (hSdt : S.hasDataTable = true)
    (hSuid : S.has_data_uid = true)
    (hSdata : S.data = s.data ++
      [⟨maxDataId s + 1, maxUid s + 1, member.membership_id, "10", prop.property_id⟩,
       ⟨maxDataId s + 2, maxUid s + 2, member.membership_id, "20", prop.property_id⟩,
       ⟨maxDataId s + 3, maxUid s + 3, member.membership_id, "30", prop.property_id⟩])
    (hSbands : S.bands = s.bands ++ [⟨maxDataId s + 2, 2⟩, ⟨maxDataId s + 3, 3⟩])
    (hStags : S.tags = s.tags)
    (hStexts : S.texts = s.texts)
    (hSmem : S.memberships = s.memberships)
    (hScls : S.classes = s.classes)
    (hSobj : S.objects = s.objects)
    (hSprops : propsNMEq S.properties s.properties)
    (ht : get_by_hierarchy s tag = some tag_obj)
    (hview : (property_view s).filter (getMatch obj.object_id name tag_obj.object_id) = [])
    (hpmem : prop ∈ s.properties)
    (hname : prop.name = name)
    (hmask : truthyMask prop.input_mask = Option.none)
    (hmmem : member ∈ s.memberships)
    (hchild : member.child_object_id = obj.object_id)
    (hparent : member.parent_object_id = tag_obj.object_id) :
    get_property S obj name tag = .ok (.list ["10", "20", "30"]) := by
  have hfq := find?_eq_of_nodup_key (fun p : PropertyRow => p.property_id) hpmem hwf.2.1
  have hfq2 : s.properties.find? (fun p => p.property_id == prop.property_id) =
      some prop := hfq
  have hk := hSprops prop.property_id
  rw [hfq2] at hk
  rcases Option.map_eq_some'.mp hk with ⟨q, hq, hqe⟩
  have hqn : q.name = prop.name := congrArg Prod.fst hqe
  have hqm : q.input_mask = prop.input_mask := congrArg Prod.snd hqe
  have hfm := find?_eq_of_nodup_key (fun m : MembershipRow => m.membership_id) hmmem hwf.2.2.1
  have hfm2 : S.memberships.find? (fun m => m.membership_id == member.membership_id) =
      some member := by
    rw [hSmem]
    exact hfm
  have hdle : ∀ d ∈ s.data, d.data_id ≤ maxDataId s := fun d hd => data_id_le_maxDataId hd
  have htagf : ∀ k, maxDataId s < k → S.tags.filter (fun t => t.data_id == k) = [] := by
    intro k hk2
    rw [hStags]
    apply filter_eq_nil_of_false
    intro t htm
    rcases hwf.2.2.2.2.1 t htm with ⟨d, hd, he⟩
    have := hdle d hd
    simp only [beq_eq_false_iff_ne, ne_eq]
    omega
  have htextf : ∀ k, maxDataId s < k → S.texts.filter (fun t => t.data_id == k) = [] := by
    intro k hk2
    rw [hStexts]
    apply filter_eq_nil_of_false
    intro t htm
    rcases hwf.2.2.2.2.2 t htm with ⟨d, hd, he⟩
    have := hdle d hd
    simp only [beq_eq_false_iff_ne, ne_eq]
    omega
  have hbandoldf : ∀ k, maxDataId s < k →
      s.bands.filter (fun b => b.data_id == k) = [] := by
    intro k hk2
    apply filter_eq_nil_of_false
    intro bb hbm
    rcases hwf.2.2.2.1 bb hbm with ⟨d, hd, he⟩
    have := hdle d hd
    simp only [beq_eq_false_iff_ne, ne_eq]
    omega
  have hb1 : bandOpts S (maxDataId s + 1) = [Option.none] := by
    unfold bandOpts
    rw [hSbands, List.filter_append, hbandoldf _ (by omega)]
    have h2 : (([⟨maxDataId s + 2, 2⟩, ⟨maxDataId s + 3, 3⟩] : List BandRow).filter
        (fun b => b.data_id == maxDataId s + 1)) = [] := by
      apply filter_eq_nil_of_false
      intro bb hbm
      rcases List.mem_cons.mp hbm with rfl | hbm2
      · simp only [beq_eq_false_iff_ne, ne_eq]
        omega
      · rcases List.mem_cons.mp hbm2 with rfl | hbm3
        · simp only [beq_eq_false_iff_ne, ne_eq]
          omega
        · simp at hbm3
    rw [h2]
    rfl
  have hb2 : bandOpts S (maxDataId s + 2) = [some 2] := by
    unfold bandOpts
    rw [hSbands, List.filter_append, hbandoldf _ (by omega)]
    have hne32 : ((maxDataId s + 3 : Nat) == maxDataId s + 2) = false := by
      simp only [beq_eq_false_iff_ne, ne_eq]
      omega
    have h2 : (([⟨maxDataId s + 2, 2⟩, ⟨maxDataId s + 3, 3⟩] : List BandRow).filter
        (fun b => b.data_id == maxDataId s + 2)) = [⟨maxDataId s + 2, 2⟩] := by
      simp [List.filter_cons, hne32]
    rw [h2]
    rfl
  have hb3 : bandOpts S (maxDataId s + 3) = [some 3] := by
    unfold bandOpts
    rw [hSbands, List.filter_append, hbandoldf _ (by omega)]
    have hne23 : ((maxDataId s + 2 : Nat) == maxDataId s + 3) = false := by
      simp only [beq_eq_false_iff_ne, ne_eq]
      omega
    have h2 : (([⟨maxDataId s + 2, 2⟩, ⟨maxDataId s + 3, 3⟩] : List BandRow).filter
        (fun b => b.data_id == maxDataId s + 3)) = [⟨maxDataId s + 3, 3⟩] := by
      simp [List.filter_cons, hne23]
    rw [h2]
    rfl
  have hdv1 : dataViewRows S ⟨maxDataId s + 1, maxUid s + 1, member.membership_id, "10",
      prop.property_id⟩ =
    [({ data_id := maxDataId s + 1
        uid := maxUid s + 1
        value := "10"
        name := q.name
        input_mask := q.input_mask
        child_object_id := member.child_object_id
        parent_object_id := member.parent_object_id
        tag_object_id := Option.none
        text_value := Option.none
        band_id := Option.none } : PropViewRow)] := by
    rw [dataViewRows_fresh S _ q member [Option.none] hq hfm2
      (htagf (maxDataId s + 1) (by omega)) (htextf (maxDataId s + 1) (by omega)) hb1]
    rfl
  have hdv2 : dataViewRows S ⟨maxDataId s + 2, maxUid s + 2, member.membership_id, "20",
      prop.property_id⟩ =
    [({ data_id := maxDataId s + 2
        uid := maxUid s + 2
        value := "20"
        name := q.name
        input_mask := q.input_mask
        child_object_id := member.child_object_id
        parent_object_id := member.parent_object_id
        tag_object_id := Option.none
        text_value := Option.none
        band_id := some 2 } : PropViewRow)] := by
    rw [dataViewRows_fresh S _ q member [some 2] hq hfm2
      (htagf (maxDataId s + 2) (by omega)) (htextf (maxDataId s + 2) (by omega)) hb2]
    rfl
  have hdv3 : dataViewRows S ⟨maxDataId s + 3, maxUid s + 3, member.membership_id, "30",
      prop.property_id⟩ =
    [({ data_id := maxDataId s + 3
        uid := maxUid s + 3
        value := "30"
        name := q.name
        input_mask := q.input_mask
        child_object_id := member.child_object_id
        parent_object_id := member.parent_object_id
        tag_object_id := Option.none
        text_value := Option.none
        band_id := some 3 } : PropViewRow)] := by
    rw [dataViewRows_fresh S _ q member [some 3] hq hfm2
      (htagf (maxDataId s + 3) (by omega)) (htextf (maxDataId s + 3) (by omega)) hb3]
    rfl
  have hold : listJoinMap (dataViewRows S) s.data = property_view s := by
    unfold property_view
    apply listJoinMap_congr
    intro d hd
    apply dataViewRows_ext d hSprops hSmem
    · rw [tagOpts_congr hStags]
    · rw [textOpts_congr hStexts]
    · unfold bandOpts
      rw [hSbands, List.filter_append]
      have h2 : (([⟨maxDataId s + 2, 2⟩, ⟨maxDataId s + 3, 3⟩] : List BandRow).filter
          (fun b => b.data_id == d.data_id)) = [] := by
        apply filter_eq_nil_of_false
        intro bb hbm
        have hdl := hdle d hd
        rcases List.mem_cons.mp hbm with rfl | hbm2
        · simp only [beq_eq_false_iff_ne, ne_eq]
          omega
        · rcases List.mem_cons.mp hbm2 with rfl | hbm3
          · simp only [beq_eq_false_iff_ne, ne_eq]
            omega
          · simp at hbm3
      rw [h2, List.append_nil]
  have hpv : property_view S = property_view s ++
    [({ data_id := maxDataId s + 1
        uid := maxUid s + 1
        value := "10"
        name := q.name
        input_mask := q.input_mask
        child_object_id := member.child_object_id
        parent_object_id := member.parent_object_id
        tag_object_id := Option.none
        text_value := Option.none
        band_id := Option.none } : PropViewRow),
     ({ data_id := maxDataId s + 2
        uid := maxUid s + 2
        value := "20"
        name := q.name
        input_mask := q.input_mask
        child_object_id := member.child_object_id
        parent_object_id := member.parent_object_id
        tag_object_id := Option.none
        text_value := Option.none
        band_id := some 2 } : PropViewRow),
     ({ data_id := maxDataId s + 3
        uid := maxUid s + 3
        value := "30"
        name := q.name
        input_mask := q.input_mask
        child_object_id := member.child_object_id
        parent_object_id := member.parent_object_id
        tag_object_id := Option.none
        text_value := Option.none
        band_id := some 3 } : PropViewRow)] := by
    show listJoinMap (dataViewRows S) S.data = _
    rw [hSdata, listJoinMap_append, hold]
    simp only [listJoinMap_cons, listJoinMap_nil, List.append_nil]
    rw [hdv1, hdv2, hdv3]
    rfl
  have hmA : getMatch obj.object_id name tag_obj.object_id
    ({ data_id := maxDataId s + 1
       uid := maxUid s + 1
       value := "10"
       name := q.name
       input_mask := q.input_mask
       child_object_id := member.child_object_id
       parent_object_id := member.parent_object_id
       tag_object_id := Option.none
       text_value := Option.none
       band_id := Option.none } : PropViewRow) = true := by
    simp [getMatch, hchild, hqn, hname, hparent]
  have hmB : getMatch obj.object_id name tag_obj.object_id
    ({ data_id := maxDataId s + 2
       uid := maxUid s + 2
       value := "20"
       name := q.name
       input_mask := q.input_mask
       child_object_id := member.child_object_id
       parent_object_id := member.parent_object_id
       tag_object_id := Option.none
       text_value := Option.none
       band_id := some 2 } : PropViewRow) = true := by
    simp [getMatch, hchild, hqn, hname, hparent]
  have hmC : getMatch obj.object_id name tag_obj.object_id
    ({ data_id := maxDataId s + 3
       uid := maxUid s + 3
       value := "30"
       name := q.name
       input_mask := q.input_mask
       child_object_id := member.child_object_id
       parent_object_id := member.parent_object_id
       tag_object_id := Option.none
       text_value := Option.none
       band_id := some 3 } : PropViewRow) = true := by
    simp [getMatch, hchild, hqn, hname, hparent]
  have hrows : getPropRows S obj.object_id name tag_obj.object_id =
    [({ data_id := maxDataId s + 1
        uid := maxUid s + 1
        value := "10"
        name := q.name
        input_mask := q.input_mask
        child_object_id := member.child_object_id
        parent_object_id := member.parent_object_id
        tag_object_id := Option.none
        text_value := Option.none
        band_id := Option.none } : PropViewRow),
     ({ data_id := maxDataId s + 2
        uid := maxUid s + 2
        value := "20"
        name := q.name
        input_mask := q.input_mask
        child_object_id := member.child_object_id
        parent_object_id := member.parent_object_id
        tag_object_id := Option.none
        text_value := Option.none
        band_id := some 2 } : PropViewRow),
     ({ data_id := maxDataId s + 3
        uid := maxUid s + 3
        value := "30"
        name := q.name
        input_mask := q.input_mask
        child_object_id := member.child_object_id
        parent_object_id := member.parent_object_id
        tag_object_id := Option.none
        text_value := Option.none
        band_id := some 3 } : PropViewRow)] := by
    unfold getPropRows
    rw [hpv, List.filter_append, hview, hSuid]
    simp [List.filter_cons, hmA, hmB, hmC, sortBy, insertBy, bandLt]
  have hcongr := get_by_hierarchy_congr hScls hSobj tag
  simp [get_property, hSdt, hcongr, ht, hrows, headValdict, hqm, hmask, valmap, maskLookup]

/-- C1: for an object with a native (membership-parent-owned) property that
currently has zero `data` rows, `set_property` with the list `[10, 20, 30]`
appends three data rows holding `10`, `20`, `30` with consecutive ids and
band rows only for bands 2 and 3 (band 1 is carried by the absence of a
band row), raises nothing, and `get_property` with the same name and tag
then returns `[10, 20, 30]` in that order. -/
theorem c1_list_roundtrip (s : Store) (b : Bool) (obj tag_obj : ObjectRow)
    (tagCls name tag : String) (prop : PropertyRow) (member : MembershipRow)
    (hwf : WF s)
    (hdt : s.hasDataTable = true)
    (huid : s.has_data_uid = true)
    (hne : s.data.isEmpty = false)
    (ht : get_by_hierarchy s tag = some tag_obj)
    (hc : classNameOf s tag_obj.class_id = some tagCls)
    (hp : lookupValidProp s obj.class_id tagCls name = some prop)
    (hmask : truthyMask prop.input_mask = Option.none)
    (hmem : s.memberships.find? (fun m =>
      m.child_object_id == obj.object_id && m.parent_object_id == tag_obj.object_id) =
      some member)
    (hzero : s.data.filter (fun d =>
      d.membership_id == member.membership_id && d.property_id == prop.property_id) = [])
    (hview : (property_view s).filter (getMatch obj.object_id name tag_obj.object_id) = []) :
    (set_property ⟨s, b⟩ obj name (.list ["10", "20", "30"]) tag Option.none).2 =
      Option.none ∧
    (set_property ⟨s, b⟩ obj name (.list ["10", "20", "30"]) tag Option.none).1.store.data =
      s.data ++
        [⟨maxDataId s + 1, maxUid s + 1, member.membership_id, "10", prop.property_id⟩,
         ⟨maxDataId s + 2, maxUid s + 2, member.membership_id, "20", prop.property_id⟩,
         ⟨maxDataId s + 3, maxUid s + 3, member.membership_id, "30", prop.property_id⟩] ∧
    (set_property ⟨s, b⟩ obj name (.list ["10", "20", "30"]) tag Option.none).1.store.bands =
      s.bands ++ [⟨maxDataId s + 2, 2⟩, ⟨maxDataId s + 3, 3⟩] ∧
    (set_property ⟨s, b⟩ obj name
        (.list ["10", "20", "30"]) tag Option.none).1.store.bands.filter
      (fun bb => bb.data_id == maxDataId s + 1) = [] ∧
    get_property
      (set_property ⟨s, b⟩ obj name (.list ["10", "20", "30"]) tag Option.none).1.store
      obj name tag = .ok (.list ["10", "20", "30"]) := by
  have hvp := validPropsFor_isEmpty_false hp
  have hnid := nativeDataIds_nil hzero
  have hmmv := mapMaskValues_noMask hmask ["10", "20", "30"]
  have hset : set_property ⟨s, b⟩ obj name (.list ["10", "20", "30"]) tag Option.none =
      (insertNativeRows member.membership_id prop.property_id (maxDataId s) (maxUid s) 0
        ["10", "20", "30"] (updateFlagsQuoted ⟨s, b⟩ prop), Option.none) := by
    simp only [set_property, setPropNative, setPropNativeZero, ht, hc, hvp,
      Bool.false_eq_true, if_false, hp, hmem, hnid, hne, toListVal, hmmv]
  have hins := insertNativeRows_three member.membership_id prop.property_id
    (maxDataId s) (maxUid s) "10" "20" "30" (updateFlagsQuoted ⟨s, b⟩ prop)
  obtain ⟨hf1, hf2, hf3, hf4, hf5, hf6, hf7, hf8, hf9, hf10, hf11⟩ :=
    updateFlagsQuoted_fields ⟨s, b⟩ prop
  have hSdata : (set_property ⟨s, b⟩ obj name
      (.list ["10", "20", "30"]) tag Option.none).1.store.data =
      s.data ++
        [⟨maxDataId s + 1, maxUid s + 1, member.membership_id, "10", prop.property_id⟩,
         ⟨maxDataId s + 2, maxUid s + 2, member.membership_id, "20", prop.property_id⟩,
         ⟨maxDataId s + 3, maxUid s + 3, member.membership_id, "30", prop.property_id⟩] := by
    rw [hset, hins, hf1]
  have hSbands : (set_property ⟨s, b⟩ obj name
      (.list ["10", "20", "30"]) tag Option.none).1.store.bands =
      s.bands ++ [⟨maxDataId s + 2, 2⟩, ⟨maxDataId s + 3, 3⟩] := by
    rw [hset, hins, hf2]
  have hbandold : s.bands.filter (fun bb => bb.data_id == maxDataId s + 1) = [] := by
    apply filter_eq_nil_of_false
    intro bb hbm
    rcases hwf.2.2.2.1 bb hbm with ⟨d, hd, he⟩
    have := data_id_le_maxDataId hd
    simp only [beq_eq_false_iff_ne, ne_eq]
    omega
  have hbandnew : (([⟨maxDataId s + 2, 2⟩, ⟨maxDataId s + 3, 3⟩] : List BandRow).filter
      (fun bb => bb.data_id == maxDataId s + 1)) = [] := by
    apply filter_eq_nil_of_false
    intro bb hbm
    rcases List.mem_cons.mp hbm with rfl | hbm2
    · simp only [beq_eq_false_iff_ne, ne_eq]
      omega
    · rcases List.mem_cons.mp hbm2 with rfl | hbm3
      · simp only [beq_eq_false_iff_ne, ne_eq]
        omega
      · simp at hbm3
  have hpmem : prop ∈ s.properties :=
    mem_properties_of_validPropsFor (lookupValidProp_mem hp).1
  have hname : prop.name = name := by
    have := (lookupValidProp_mem hp).2
    simpa using this
  have hmmem : member ∈ s.memberships := List.mem_of_find?_eq_some hmem
  have hcp : member.child_object_id = obj.object_id ∧
      member.parent_object_id = tag_obj.object_id := by
    have := List.find?_some hmem
    simpa [Bool.and_eq_true] using this
  refine ⟨by rw [hset], hSdata, hSbands, ?_, ?_⟩
  · rw [hSbands, List.filter_append, hbandold, hbandnew]
    rfl
  · have hSdt : (set_property ⟨s, b⟩ obj name
        (.list ["10", "20", "30"]) tag Option.none).1.store.hasDataTable = true := by
      rw [hset, hins]
      show (updateFlagsQuoted ⟨s, b⟩ prop).store.hasDataTable = true
      rw [hf9]
      exact hdt
    have hSuid : (set_property ⟨s, b⟩ obj name
        (.list ["10", "20", "30"]) tag Option.none).1.store.has_data_uid = true := by
      rw [hset, hins]
      show (updateFlagsQuoted ⟨s, b⟩ prop).store.has_data_uid = true
      rw [hf10]
      exact huid
    have hStags : (set_property ⟨s, b⟩ obj name
        (.list ["10", "20", "30"]) tag Option.none).1.store.tags = s.tags := by
      rw [hset, hins]
      show (updateFlagsQuoted ⟨s, b⟩ prop).store.tags = s.tags
      rw [hf3]
    have hStexts : (set_property ⟨s, b⟩ obj name
        (.list ["10", "20", "30"]) tag Option.none).1.store.texts = s.texts := by
      rw [hset, hins]
      show (updateFlagsQuoted ⟨s, b⟩ prop).store.texts = s.texts
      rw [hf4]
    have hSmem : (set_property ⟨s, b⟩ obj name
        (.list ["10", "20", "30"]) tag Option.none).1.store.memberships =
        s.memberships := by
      rw [hset, hins]
      show (updateFlagsQuoted ⟨s, b⟩ prop).store.memberships = s.memberships
      rw [hf5]
    have hScls : (set_property ⟨s, b⟩ obj name
        (.list ["10", "20", "30"]) tag Option.none).1.store.classes = s.classes := by
      rw [hset, hins]
      show (updateFlagsQuoted ⟨s, b⟩ prop).store.classes = s.classes
      rw [hf6]
    have hSobj : (set_property ⟨s, b⟩ obj name
        (.list ["10", "20", "30"]) tag Option.none).1.store.objects = s.objects := by
      rw [hset, hins]
      show (updateFlagsQuoted ⟨s, b⟩ prop).store.objects = s.objects
      rw [hf7]
    have hSprops : propsNMEq (set_property ⟨s, b⟩ obj name
        (.list ["10", "20", "30"]) tag Option.none).1.store.properties s.properties := by
      rw [hset, hins]
      exact hf11
    exact c1_get_after s _ obj tag_obj member prop name tag hwf hSdt hSuid hSdata hSbands
      hStags hStexts hSmem hScls hSobj hSprops ht hview hpmem hname hmask hmmem
      hcp.1 hcp.2

theorem c1_list_roundtrip_witness :
    (set_property ⟨storeZero, false⟩ genObj "P" (.list ["10", "20", "30"])
        "System.System" Option.none).2 = Option.none ∧
    (set_property ⟨storeZero, false⟩ genObj "P" (.list ["10", "20", "30"])
        "System.System" Option.none).1.store.data =
      storeZero.data ++ [⟨2, 2, 1, "10", 1⟩, ⟨3, 3, 1, "20", 1⟩, ⟨4, 4, 1, "30", 1⟩] ∧
    (set_property ⟨storeZero, false⟩ genObj "P" (.list ["10", "20", "30"])
        "System.System" Option.none).1.store.bands =
      storeZero.bands ++ [⟨3, 2⟩, ⟨4, 3⟩] ∧
    (set_property ⟨storeZero, false⟩ genObj "P" (.list ["10", "20", "30"])
        "System.System" Option.none).1.store.bands.filter
      (fun bb => bb.data_id == 2) = [] ∧
    get_property
      (set_property ⟨storeZero, false⟩ genObj "P" (.list ["10", "20", "30"])
        "System.System" Option.none).1.store
      genObj "P" "System.System" = .ok (.list ["10", "20", "30"]) :=
  c1_list_roundtrip storeZero false genObj sysObj "System" "P" "System.System" propP memb1
    (by decide) rfl rfl rfl rfl rfl rfl rfl rfl rfl rfl
